import Mathlib

/-!
# Verification of the tic-tac-toe match server (src/server.ts)

A shallow embedding of the Socket.IO tic-tac-toe server.  The embedding
follows src/server.ts (the current revision under src/), together with the
GamePlayer / GameMatch interfaces from the game/types module.

Modelling conventions:
* A JS Map is an insertion-ordered association list; Map.set on a fresh key
  appends, Map.set / in-place mutation on a present key updates in place.
* A socket is identified by its id (a Nat); a nulled socket field is none.
* The board is string[][] as in the source: a list of rows of strings,
  "" meaning an empty cell.  cell/setCell give the array accesses the
  source performs at in-range indices.
* Numbers arriving in a make_move payload are modelled after Number(x):
  either an integer or NaN (none).  JS comparisons with NaN are false.
* External SDK calls (reportMatchStart, reportPlayerJoin, reportMatchResult)
  are suspending calls whose success is an environment choice; each handler
  takes the outcome of the calls it may perform as a Bool oracle.  A retried
  reportPlayerJoin is folded into one final outcome.
* Each socket event handler is one atomic step (the spec requires all
  mutations of a session to be linearized); the two deferred timers that
  the claims need (the 250ms match_started emission and the 30s disconnect
  grace check) are their own steps, enabled by a pending-task list.
  The 60s post-conclusion deletion timer is not needed by any claim and is
  not modelled.
-/

/-- One of the two role tokens, as the strings the server stores. -/
abbrev SockId := Nat

/-- game/types GamePlayer: socket is nullable at runtime (the disconnect
handler writes `null as any`), symbol is "X" | "O" | null. -/
structure GamePlayer where
  id : String
  username : String
  socket : Option SockId
  symbol : Option String
  registeredWithSDK : Bool
deriving DecidableEq, Repr

/-- string[][] board. -/
abbrev Board := List (List String)

/-- game/types GameMatch. startedAt : Date is only ever tested for
presence, so it is modelled as a Bool. -/
structure GameMatch where
  id : String
  players : List GamePlayer
  board : Board
  currentPlayer : String
  status : String
  winner : Option String
  startedAt : Bool
deriving DecidableEq, Repr

/-- board[i][j] at the in-range indices the source uses. -/
def cell (b : Board) (i j : Nat) : String := (b.getD i []).getD j ""

/-- board[i][j] = s. -/
def setCell (b : Board) (i j : Nat) (s : String) : Board :=
  b.set i ((b.getD i []).set j s)

/-- createMatch from server.ts. -/
def createMatch (matchId : String) : GameMatch :=
  { id := matchId
    players := []
    board := [["", "", ""], ["", "", ""], ["", "", ""]]
    currentPlayer := "X"
    status := "waiting"
    winner := none
    startedAt := false }

/-- checkWinner from server.ts with the row / column / diagonal loops
unrolled in the source's scan order.  The leading truthiness test
`board[i][0] &&` is the inequality with "". -/
def checkWinner (b : Board) : Option String :=
  if cell b 0 0 ≠ "" ∧ cell b 0 0 = cell b 0 1 ∧ cell b 0 1 = cell b 0 2 then some (cell b 0 0)
  else if cell b 1 0 ≠ "" ∧ cell b 1 0 = cell b 1 1 ∧ cell b 1 1 = cell b 1 2 then some (cell b 1 0)
  else if cell b 2 0 ≠ "" ∧ cell b 2 0 = cell b 2 1 ∧ cell b 2 1 = cell b 2 2 then some (cell b 2 0)
  else if cell b 0 0 ≠ "" ∧ cell b 0 0 = cell b 1 0 ∧ cell b 1 0 = cell b 2 0 then some (cell b 0 0)
  else if cell b 0 1 ≠ "" ∧ cell b 0 1 = cell b 1 1 ∧ cell b 1 1 = cell b 2 1 then some (cell b 0 1)
  else if cell b 0 2 ≠ "" ∧ cell b 0 2 = cell b 1 2 ∧ cell b 1 2 = cell b 2 2 then some (cell b 0 2)
  else if cell b 0 0 ≠ "" ∧ cell b 0 0 = cell b 1 1 ∧ cell b 1 1 = cell b 2 2 then some (cell b 0 0)
  else if cell b 0 2 ≠ "" ∧ cell b 0 2 = cell b 1 1 ∧ cell b 1 1 = cell b 2 0 then some (cell b 0 2)
  else none

/-- isBoardFull from server.ts. -/
def isBoardFull (b : Board) : Bool :=
  (List.range 3).all fun i => (List.range 3).all fun j => cell b i j != ""

/-- Outbound messages (§6 of the spec, as the source emits them). -/
inductive Msg where
  | authenticated (playerId username matchId : String)
      (symbol : Option String) (matchStatus : String)
  | authError (message : String)
  | matchStarted (matchId : String)
      (roster : List (String × String × Option String))
      (currentPlayer : String) (yourSymbol : Option String)
  | gameState (board : Board) (currentPlayer : String)
      (roster : List (String × String × Option String))
      (yourSymbol : Option String)
  | moveMade (row col : Option Int) (symbol : Option String)
      (currentPlayer : String) (board : Board)
  | gameFinished (winner : Option String) (board : Board)
  | playerDisconnected (playerId : String) (temporary : Bool)
  | errorMsg (message : String)
deriving DecidableEq, Repr

/-- Deliveries performed by a handler: socket.emit, io.to(room).emit,
socket.to(room).emit (room minus sender), socket.disconnect(). -/
inductive Event where
  | emit (sock : SockId) (m : Msg)
  | room (matchId : String) (m : Msg)
  | roomExcept (sock : SockId) (matchId : String) (m : Msg)
  | disconnectSock (sock : SockId)
deriving DecidableEq, Repr

/-- Whole-server state: activeMatches, the per-connection closure variables
(currentPlayer.id, currentMatchId) keyed by socket, and the pending deferred
tasks relevant to the claims. -/
structure ServerState where
  activeMatches : List GameMatch
  closures : List (SockId × String × String)
  pendingStartEmits : List String
  pendingGrace : List (String × String)
deriving DecidableEq, Repr

def initState : ServerState :=
  { activeMatches := [], closures := [], pendingStartEmits := [], pendingGrace := [] }

/-- activeMatches.get(matchId). -/
def getMatch (st : ServerState) (mid : String) : Option GameMatch :=
  st.activeMatches.find? fun m => m.id == mid

/-- activeMatches.set(m.id, m): in-place update when present, append when
fresh (JS Map semantics). -/
def setMatch (st : ServerState) (m : GameMatch) : ServerState :=
  if (st.activeMatches.find? fun x => x.id == m.id).isSome then
    { st with activeMatches := st.activeMatches.map fun x => if x.id == m.id then m else x }
  else
    { st with activeMatches := st.activeMatches ++ [m] }

/-- The per-connection closure assignment currentPlayer/currentMatchId. -/
def setClosure (cs : List (SockId × String × String)) (sock : SockId)
    (pid mid : String) : List (SockId × String × String) :=
  if (cs.find? fun c => c.1 == sock).isSome then
    cs.map fun c => if c.1 == sock then (sock, pid, mid) else c
  else
    cs ++ [(sock, pid, mid)]

/-- The roster arrays the source builds from match.players.values(). -/
def roster (m : GameMatch) : List (String × String × Option String) :=
  m.players.map fun p => (p.id, p.username, p.symbol)

/-- Step 7 of the authenticate handler: playersArray[0].symbol = "X";
playersArray[1].symbol = "O". -/
def assignSymbols : List GamePlayer → List GamePlayer
  | p0 :: p1 :: rest => { p0 with symbol := some "X" } :: { p1 with symbol := some "O" } :: rest
  | other => other

/-- Input of one successful-validation authenticate event: the socket, the
verified identity, the match id, and the outcomes of the external
reportMatchStart / reportPlayerJoin calls the handler may make. -/
structure AuthInput where
  sock : SockId
  pid : String
  username : String
  matchId : String
  startOk : Bool
  joinOk : Bool
deriving DecidableEq, Repr

/-- In-place mutation of the player object stored under an id (JS object
identity inside the Map: the entry keeps its position). -/
def updatePlayer (ps : List GamePlayer) (pid : String) (g : GamePlayer → GamePlayer) :
    List GamePlayer :=
  ps.map fun q => if q.id == pid then g q else q

/-- The player object constructed for a new join. -/
def newPlayer (a : AuthInput) : GamePlayer :=
  { id := a.pid, username := a.username, socket := some a.sock,
    symbol := none, registeredWithSDK := false }

/-- Step 4 gate: match.players.size === 1 && match.status === "waiting" &&
!match.startedAt. -/
def authStep4Cond (m1 : GameMatch) : Bool :=
  m1.players.length == 1 && m1.status == "waiting" && !m1.startedAt

/-- Step 7 gate: match.players.size === 2 && match.status === "waiting" &&
!isReconnect. -/
def authWillStart (m3 : GameMatch) (isRec : Bool) : Bool :=
  m3.players.length == 2 && m3.status == "waiting" && !isRec

/-- Steps 2-7 of the authenticate handler: the match object as it stands
after the join is absorbed, together with the matchStarting flag of step 7.
Step 8-10 (emissions) and the registry/closure writeback are in
authenticate below. -/
def authCore (st : ServerState) (a : AuthInput) : GameMatch × Bool :=
  -- Step 2: get or create match
  let m0 := (getMatch st a.matchId).getD (createMatch a.matchId)
  -- Step 3: get or create game player (preserve symbol if reconnecting)
  let isRec := (m0.players.find? fun p => p.id == a.pid).isSome
  let m1 :=
    if isRec then
      { m0 with players :=
          updatePlayer m0.players a.pid (fun p => { p with socket := some a.sock }) }
    else
      { m0 with players := m0.players ++ [newPlayer a] }
  -- Step 4: report match start; startedAt is recorded even when the SDK
  -- call fails (the catch sets it anyway)
  let m2 :=
    if authStep4Cond m1 then
      { m1 with startedAt := true }
    else m1
  -- Step 5: report player join for new players, or retry for a reconnect
  -- never registered; the inner ensure-started call records startedAt only
  -- on success, and the final registration outcome is the joinOk oracle
  let pReg := ((m2.players.find? fun p => p.id == a.pid).getD (newPlayer a)).registeredWithSDK
  let m3 :=
    if !isRec || !pReg then
      { m2 with
        startedAt := m2.startedAt || a.startOk
        players :=
          updatePlayer m2.players a.pid (fun p => { p with registeredWithSDK := a.joinOk }) }
    else m2
  -- Step 7: two players, still waiting, not a reconnect: assign symbols
  let willStart := authWillStart m3 isRec
  let m4 :=
    if willStart then
      { m3 with players := assignSymbols m3.players, currentPlayer := "X", status := "playing" }
    else m3
  (m4, willStart)

/-- The authenticate handler after a successful validatePlayerToken:
authCore followed by the step 8-10 emissions and the writeback of the
match, the closure variables, and the scheduled match_started timer.
Returns the new state, the emitted events in order, and whether
the handler threw (it cannot on this path). -/
def authenticate (st : ServerState) (a : AuthInput) : ServerState × List Event × Bool :=
  let m4 := (authCore st a).1
  let willStart := (authCore st a).2
  -- Step 8: authenticated ack, with the symbol as it stands after step 7
  let pCur := (m4.players.find? fun p => p.id == a.pid).getD (newPlayer a)
  let evAuth := Event.emit a.sock
    (Msg.authenticated a.pid pCur.username a.matchId pCur.symbol m4.status)
  -- Step 10: resync snapshot for a join into an already-playing match
  let evState :=
    if m4.status == "playing" && !willStart then
      [Event.emit a.sock (Msg.gameState m4.board m4.currentPlayer (roster m4) pCur.symbol)]
    else []
  let st1 := setMatch st m4
  ({ st1 with
      closures := setClosure st1.closures a.sock a.pid a.matchId
      -- Step 9: the deferred match_started emission is scheduled
      pendingStartEmits :=
        if willStart then st1.pendingStartEmits ++ [a.matchId] else st1.pendingStartEmits },
   evAuth :: evState, false)

/-- The make_move scan: first match, in activeMatches order, holding a
player whose non-null socket has this id. -/
def findBySocket (ms : List GameMatch) (sock : SockId) : Option (GameMatch × GamePlayer) :=
  ms.findSome? fun m =>
    (m.players.find? fun p => p.socket == some sock).map fun p => (m, p)

/-- JS < with NaN on the left: false. -/
def jsLt : Option Int → Int → Bool
  | none, _ => false
  | some n, k => n < k

/-- JS > with NaN on the left: false. -/
def jsGt : Option Int → Int → Bool
  | none, _ => false
  | some n, k => k < n

/-- The indices at which board[i] / row[j] is an element rather than
undefined: exactly the integers 0, 1, 2 on the server's 3x3 boards. -/
def toIdx : Option Int → Option Nat
  | none => none
  | some n => if 0 ≤ n ∧ n < 3 then some n.toNat else none

/-- match.currentPlayer === "X" ? "O" : "X". -/
def flipSym (s : String) : String := if s == "X" then "O" else "X"

/-- Win path of make_move.  match.winner and match.currentPlayer are set
before the try block; status becomes "finished" both on reportMatchResult
success and in its catch, but only when both a winner-symbol player and a
different-symbol player are found - otherwise the try block only logs and
the status is left untouched.  The ensure-started call records startedAt
only on success.  game_finished is broadcast after the try/catch either
way.  resOk, the reportMatchResult outcome, does not influence the state. -/
def winBranch (st : ServerState) (m : GameMatch) (b' : Board) (w : String)
    (startOk : Bool) (resOk : Bool) : ServerState × List Event × Bool :=
  let mW := { m with board := b', winner := some w, currentPlayer := w }
  let haveBoth := (mW.players.find? fun q => q.symbol == some w).isSome
      && (mW.players.find? fun q => q.symbol != some w).isSome
  let mW2 :=
    if haveBoth then
      { mW with startedAt := mW.startedAt || startOk, status := "finished" }
    else mW
  let _ := resOk
  (setMatch st mW2, [Event.room m.id (Msg.gameFinished (some w) b')], false)

/-- Draw path of make_move: reporting (and the status update) only happens
with at least two players in the roster; game_finished {winner: null} is
broadcast either way. -/
def drawBranch (st : ServerState) (m : GameMatch) (b' : Board)
    (startOk : Bool) (resOk : Bool) : ServerState × List Event × Bool :=
  let mD := { m with board := b', winner := none }
  let mD2 :=
    if 2 ≤ mD.players.length then
      { mD with startedAt := mD.startedAt || startOk, status := "finished" }
    else mD
  let _ := resOk
  (setMatch st mD2, [Event.room m.id (Msg.gameFinished none b')], false)

/-- The make_move handler.  The two payload numbers are the results of
Number(data.row) / Number(data.col).  The third component is true when the
handler threw: board[row] is undefined whenever row is NaN or a non-index
number that survived the bounds guard, and reading [col] of undefined
throws before any state change.  When only col is such a number,
board[row][col] is undefined, which is !== "", so the occupied-cell
rejection fires instead. -/
def makeMove (st : ServerState) (sock : SockId) (row col : Option Int)
    (startOk resOk : Bool) : ServerState × List Event × Bool :=
  match findBySocket st.activeMatches sock with
  | none => (st, [Event.emit sock (Msg.errorMsg "Not authenticated")], false)
  | some (m, p) =>
    if m.status != "playing" then
      (st, [Event.emit sock (Msg.errorMsg "Match not in playing state")], false)
    else if p.symbol != some m.currentPlayer then
      (st, [Event.emit sock (Msg.errorMsg "Not your turn")], false)
    else if jsLt row 0 || jsGt row 2 || jsLt col 0 || jsGt col 2 then
      (st, [Event.emit sock (Msg.errorMsg "Invalid move coordinates")], false)
    else
      match toIdx row with
      | none => (st, [], true)
      | some ri =>
        match toIdx col with
        | none => (st, [Event.emit sock (Msg.errorMsg "Cell already occupied")], false)
        | some ci =>
          if cell m.board ri ci != "" then
            (st, [Event.emit sock (Msg.errorMsg "Cell already occupied")], false)
          else
            let b' := setCell m.board ri ci (p.symbol.getD "")
            match checkWinner b' with
            | some w => winBranch st m b' w startOk resOk
            | none =>
              if isBoardFull b' then drawBranch st m b' startOk resOk
              else
                (setMatch st { m with board := b', currentPlayer := flipSym m.currentPlayer },
                 [Event.room m.id
                    (Msg.moveMade row col p.symbol (flipSym m.currentPlayer) b')],
                 false)

/-- The disconnect handler: via the closure variables it nulls the socket
of the bound participant (without checking that the disconnecting socket is
the one currently stored), notifies the rest of the room, and schedules the
30s grace check. -/
def disconnect (st : ServerState) (sock : SockId) : ServerState × List Event × Bool :=
  match st.closures.find? fun c => c.1 == sock with
  | none => (st, [], false)
  | some c =>
    match getMatch st c.2.2 with
    | none => (st, [], false)
    | some m =>
      let ps' := updatePlayer m.players c.2.1 (fun p => { p with socket := none })
      let m' := { m with players := ps' }
      let st1 := setMatch st m'
      ({ st1 with pendingGrace := st1.pendingGrace ++ [(c.2.2, c.2.1)] },
       [Event.roomExcept sock c.2.2 (Msg.playerDisconnected c.2.1 true)], false)

/-- The 30-second grace timer body: if the player's socket is still null,
remove the player (best-effort reportMatchError has no local effect), and
delete the match when no connected player remains. -/
def graceFire (st : ServerState) (mid pid : String) : ServerState :=
  if (mid, pid) ∈ st.pendingGrace then
    let st0 := { st with pendingGrace := st.pendingGrace.erase (mid, pid) }
    match getMatch st0 mid with
    | none => st0
    | some m =>
      match m.players.find? fun p => p.id == pid with
      | none => st0
      | some p =>
        if p.socket == none then
          let m' := { m with players := m.players.filter fun q => q.id != pid }
          if (m'.players.filter fun q => q.socket != none).length == 0 then
            { st0 with activeMatches := st0.activeMatches.filter fun q => q.id != mid }
          else setMatch st0 m'
        else st0
  else st

/-- The 250ms deferred match_started emission: p.socket.emit for each
player in order.  A null socket makes the emission throw; the events
already sent stay sent. -/
def emitStarted (mid : String) (ros : List (String × String × Option String)) :
    List GamePlayer → List Event × Bool
  | [] => ([], false)
  | p :: rest =>
    match p.socket with
    | none => ([], true)
    | some s =>
      let r := emitStarted mid ros rest
      (Event.emit s (Msg.matchStarted mid ros "X" p.symbol) :: r.1, r.2)

/-- The scheduled match_started timer as a step: fires once per schedule.
The payload's currentPlayer is the literal "X" of the source. -/
def fireMatchStarted (st : ServerState) (mid : String) : ServerState × List Event × Bool :=
  if mid ∈ st.pendingStartEmits then
    let st0 := { st with pendingStartEmits := st.pendingStartEmits.erase mid }
    match getMatch st0 mid with
    | none => (st0, [], false)
    | some m => (st0, emitStarted mid (roster m) m.players)
  else (st, [], false)

/-- The events the server can process, one atomic step each. -/
inductive Step where
  | auth (a : AuthInput)
  | authFail (sock : SockId)
  | move (sock : SockId) (row col : Option Int) (startOk resOk : Bool)
  | disc (sock : SockId)
  | fire (mid : String)
  | grace (mid pid : String)
deriving DecidableEq, Repr

/-- One step of the server. -/
def applyStep (st : ServerState) : Step → ServerState × List Event × Bool
  | Step.auth a => authenticate st a
  | Step.authFail sock =>
      (st, [Event.emit sock (Msg.authError "Invalid token"), Event.disconnectSock sock], false)
  | Step.move sock row col startOk resOk => makeMove st sock row col startOk resOk
  | Step.disc sock => disconnect st sock
  | Step.fire mid => fireMatchStarted st mid
  | Step.grace mid pid => (graceFire st mid pid, [], false)

/-- Run a list of steps, keeping only the final state. -/
def run (st : ServerState) (steps : List Step) : ServerState :=
  steps.foldl (fun s stp => (applyStep s stp).1) st

/-- The player record stored for pid in match mid. -/
def findPlayer (st : ServerState) (mid pid : String) : Option GamePlayer :=
  (getMatch st mid).bind fun m => m.players.find? fun p => p.id == pid

/-- The step is an authenticate of a second distinct identity into a
waiting one-participant session - the only role-assigning event. -/
def isSecondJoin (st : ServerState) (stp : Step) (mid : String) : Prop :=
  ∃ a, stp = Step.auth a ∧ a.matchId = mid ∧
    ((getMatch st mid).getD (createMatch mid)).status = "waiting" ∧
    ((getMatch st mid).getD (createMatch mid)).players.find? (fun q => q.id == a.pid) = none ∧
    ((getMatch st mid).getD (createMatch mid)).players.length = 1

/-! ## Concrete runs of the server, used to instantiate the theorems -/

/-- First joiner: socket 1, identity p1. -/
def aIn1 : AuthInput :=
  { sock := 1, pid := "p1", username := "u1", matchId := "m1", startOk := true, joinOk := true }

/-- Second joiner: socket 2, identity p2. -/
def aIn2 : AuthInput :=
  { sock := 2, pid := "p2", username := "u2", matchId := "m1", startOk := true, joinOk := true }

/-- Third distinct joiner: socket 3, identity p3. -/
def aIn3 : AuthInput :=
  { sock := 3, pid := "p3", username := "u3", matchId := "m1", startOk := true, joinOk := true }

/-- Reconnection of p1 on a fresh socket 7. -/
def aRe1 : AuthInput :=
  { sock := 7, pid := "p1", username := "u1", matchId := "m1", startOk := true, joinOk := true }

/-- Second live connection (socket 3) for the already-bound identity p1. -/
def aSup : AuthInput :=
  { sock := 3, pid := "p1", username := "u1", matchId := "m1", startOk := true, joinOk := true }

/-- State after p1 authenticates into the fresh match m1. -/
def stA : ServerState := run initState [Step.auth aIn1]

/-- State after both p1 and p2 authenticated: m1 is playing. -/
def stAB : ServerState := run initState [Step.auth aIn1, Step.auth aIn2]

/-- The stored match of stA. -/
def mA : GameMatch := (getMatch stA "m1").getD (createMatch "m1")

/-- p1 as stored in stA. -/
def pA1 : GamePlayer := (mA.players.find? fun q => q.id == "p1").getD (newPlayer aIn1)

/-- The stored match of stAB. -/
def mAB : GameMatch := (getMatch stAB "m1").getD (createMatch "m1")

/-- p1 as stored in stAB (role X). -/
def pAB1 : GamePlayer := (mAB.players.find? fun q => q.id == "p1").getD (newPlayer aIn1)

/-- p2 as stored in stAB (role O). -/
def pAB2 : GamePlayer := (mAB.players.find? fun q => q.id == "p2").getD (newPlayer aIn2)

/-- Four accepted moves into stAB: X(0,0) O(1,0) X(0,1) O(1,1); X to move. -/
def stM4 : ServerState := run stAB
  [Step.move 1 (some 0) (some 0) true true, Step.move 2 (some 1) (some 0) true true,
   Step.move 1 (some 0) (some 1) true true, Step.move 2 (some 1) (some 1) true true]

/-- The stored match of stM4. -/
def mM4 : GameMatch := (getMatch stM4 "m1").getD (createMatch "m1")

/-- p1 as stored in stM4. -/
def pM41 : GamePlayer := (mM4.players.find? fun q => q.id == "p1").getD (newPlayer aIn1)

/-- stM4 after p2 disconnects and the 30s grace timer removes p2: a
one-player playing match one move from a win. -/
def stCE : ServerState := run stM4 [Step.disc 2, Step.grace "m1" "p2"]

/-- The stored match of stCE. -/
def mCE : GameMatch := (getMatch stCE "m1").getD (createMatch "m1")

/-- stAB after a third distinct identity authenticates into m1. -/
def st3 : ServerState := run stAB [Step.auth aIn3]

/-- stAB after p1 opens a second live connection on socket 3. -/
def stSup : ServerState := run stAB [Step.auth aSup]

/-- stAB after socket 1 disconnects inside the 250ms match_started
deferral window (the timer has not fired yet). -/
def stD : ServerState := run stAB [Step.disc 1]


/-! ## The terminal-state evaluator as a pure function (claim C9) -/

/-- The spec-side reading of a winning line for C9: some row, some column,
or some diagonal holds three cells all equal to the non-empty symbol s.
This definition follows the words of the spec and is compared against
checkWinner, which follows the source. -/
def hasLine (b : Board) (s : String) : Prop :=
  s ≠ "" ∧
  ((cell b 0 0 = s ∧ cell b 0 1 = s ∧ cell b 0 2 = s) ∨
   (cell b 1 0 = s ∧ cell b 1 1 = s ∧ cell b 1 2 = s) ∨
   (cell b 2 0 = s ∧ cell b 2 1 = s ∧ cell b 2 2 = s) ∨
   (cell b 0 0 = s ∧ cell b 1 0 = s ∧ cell b 2 0 = s) ∨
   (cell b 0 1 = s ∧ cell b 1 1 = s ∧ cell b 2 1 = s) ∨
   (cell b 0 2 = s ∧ cell b 1 2 = s ∧ cell b 2 2 = s) ∨
   (cell b 0 0 = s ∧ cell b 1 1 = s ∧ cell b 2 2 = s) ∨
   (cell b 0 2 = s ∧ cell b 1 1 = s ∧ cell b 2 0 = s))

instance (b : Board) (s : String) : Decidable (hasLine b s) := by
  unfold hasLine; infer_instance

/-- checkWinner only reports symbols that do complete a line. -/
theorem checkWinner_hasLine {b : Board} {r : String}
    (h : checkWinner b = some r) : hasLine b r := by
  unfold checkWinner at h
  split_ifs at h with h1 h2 h3 h4 h5 h6 h7 h8 <;>
    first
      | exact Option.noConfusion h
      | (injection h with h; subst h)
  · exact ⟨h1.1, Or.inl ⟨rfl, h1.2.1.symm, (h1.2.1.trans h1.2.2).symm⟩⟩
  · exact ⟨h2.1, Or.inr (Or.inl ⟨rfl, h2.2.1.symm, (h2.2.1.trans h2.2.2).symm⟩)⟩
  · exact ⟨h3.1, Or.inr (Or.inr (Or.inl ⟨rfl, h3.2.1.symm, (h3.2.1.trans h3.2.2).symm⟩))⟩
  · exact ⟨h4.1, Or.inr (Or.inr (Or.inr (Or.inl
      ⟨rfl, h4.2.1.symm, (h4.2.1.trans h4.2.2).symm⟩)))⟩
  · exact ⟨h5.1, Or.inr (Or.inr (Or.inr (Or.inr (Or.inl
      ⟨rfl, h5.2.1.symm, (h5.2.1.trans h5.2.2).symm⟩))))⟩
  · exact ⟨h6.1, Or.inr (Or.inr (Or.inr (Or.inr (Or.inr (Or.inl
      ⟨rfl, h6.2.1.symm, (h6.2.1.trans h6.2.2).symm⟩)))))⟩
  · exact ⟨h7.1, Or.inr (Or.inr (Or.inr (Or.inr (Or.inr (Or.inr (Or.inl
      ⟨rfl, h7.2.1.symm, (h7.2.1.trans h7.2.2).symm⟩))))))⟩
  · exact ⟨h8.1, Or.inr (Or.inr (Or.inr (Or.inr (Or.inr (Or.inr (Or.inr
      ⟨rfl, h8.2.1.symm, (h8.2.1.trans h8.2.2).symm⟩))))))⟩

/-- checkWinner returns null exactly when no line of three equal non-empty
cells exists. -/
theorem checkWinner_none_iff (b : Board) :
    checkWinner b = none ↔ ∀ s, ¬ hasLine b s := by
  constructor
  · intro h s hs
    obtain ⟨hne, hl⟩ := hs
    unfold checkWinner at h
    split_ifs at h with h1 h2 h3 h4 h5 h6 h7 h8 <;> try exact Option.noConfusion h
    rcases hl with ⟨c1, c2, c3⟩ | ⟨c1, c2, c3⟩ | ⟨c1, c2, c3⟩ | ⟨c1, c2, c3⟩ |
      ⟨c1, c2, c3⟩ | ⟨c1, c2, c3⟩ | ⟨c1, c2, c3⟩ | ⟨c1, c2, c3⟩
    · exact h1 ⟨by rw [c1]; exact hne, c1.trans c2.symm, c2.trans c3.symm⟩
    · exact h2 ⟨by rw [c1]; exact hne, c1.trans c2.symm, c2.trans c3.symm⟩
    · exact h3 ⟨by rw [c1]; exact hne, c1.trans c2.symm, c2.trans c3.symm⟩
    · exact h4 ⟨by rw [c1]; exact hne, c1.trans c2.symm, c2.trans c3.symm⟩
    · exact h5 ⟨by rw [c1]; exact hne, c1.trans c2.symm, c2.trans c3.symm⟩
    · exact h6 ⟨by rw [c1]; exact hne, c1.trans c2.symm, c2.trans c3.symm⟩
    · exact h7 ⟨by rw [c1]; exact hne, c1.trans c2.symm, c2.trans c3.symm⟩
    · exact h8 ⟨by rw [c1]; exact hne, c1.trans c2.symm, c2.trans c3.symm⟩
  · intro h
    cases hw : checkWinner b with
    | none => rfl
    | some r => exact absurd (checkWinner_hasLine hw) (h r)

/-- When exactly one symbol completes a line, checkWinner returns it. -/
theorem checkWinner_unique {b : Board} {r : String}
    (hr : hasLine b r) (hu : ∀ s, hasLine b s → s = r) :
    checkWinner b = some r := by
  cases hw : checkWinner b with
  | none => exact absurd hr ((checkWinner_none_iff b).mp hw r)
  | some s => rw [hu s (checkWinner_hasLine hw)]

/-- isBoardFull is the all-9-cells-non-empty test. -/
theorem isBoardFull_iff (b : Board) :
    isBoardFull b = true ↔ ∀ i < 3, ∀ j < 3, cell b i j ≠ "" := by
  unfold isBoardFull
  simp [List.all_eq_true, List.mem_range]

/-! ## Helper lemmas about the map / registry operations -/

/-- A per-player in-place update commutes with lookup by id when it
preserves ids. -/
theorem find?_id_map (g : GamePlayer → GamePlayer) (hg : ∀ x, (g x).id = x.id)
    (ps : List GamePlayer) (q : String) :
    (ps.map g).find? (fun p => p.id == q) = (ps.find? fun p => p.id == q).map g := by
  rw [List.find?_map]
  have : ((fun p => p.id == q) ∘ g) = fun p => p.id == q := by
    funext p
    simp [Function.comp, hg]
  rw [this]

/-- Removing the entries of a different id does not change a lookup. -/
theorem find?_filter_other (ps : List GamePlayer) (pid pid0 : String) (h : pid ≠ pid0) :
    (ps.filter fun q => q.id != pid0).find? (fun q => q.id == pid) =
      ps.find? (fun q => q.id == pid) := by
  rw [List.find?_filter]
  congr 1
  funext q
  by_cases hq : q.id = pid
  · subst hq
    simp [h]
  · simp [hq]

/-- Removing all entries of an id empties the lookup of that id. -/
theorem find?_filter_self (ps : List GamePlayer) (pid : String) :
    (ps.filter fun q => q.id != pid).find? (fun q => q.id == pid) = none := by
  rw [List.find?_filter]
  simp only [List.find?_eq_none]
  intro q _
  by_cases hq : q.id = pid <;> simp [hq]

/-- The registry list after a setMatch. -/
theorem setMatch_activeMatches (st : ServerState) (m : GameMatch) :
    (setMatch st m).activeMatches =
      if (st.activeMatches.find? fun x => x.id == m.id).isSome then
        st.activeMatches.map fun x => if x.id == m.id then m else x
      else st.activeMatches ++ [m] := by
  unfold setMatch
  split
  · simp_all
  · simp_all

/-- setMatch does not touch the closures. -/
theorem setMatch_closures (st : ServerState) (m : GameMatch) :
    (setMatch st m).closures = st.closures := by
  unfold setMatch
  split <;> rfl

/-- setMatch does not touch the pending start emissions. -/
theorem setMatch_pendingStartEmits (st : ServerState) (m : GameMatch) :
    (setMatch st m).pendingStartEmits = st.pendingStartEmits := by
  unfold setMatch
  split <;> rfl

/-- setMatch does not touch the pending grace checks. -/
theorem setMatch_pendingGrace (st : ServerState) (m : GameMatch) :
    (setMatch st m).pendingGrace = st.pendingGrace := by
  unfold setMatch
  split <;> rfl

/-- In-place replacement finds the replacement. -/
theorem find?_map_replace (ms : List GameMatch) (m : GameMatch)
    (h : ∃ x ∈ ms, x.id = m.id) :
    (ms.map fun x => if x.id == m.id then m else x).find? (fun x => x.id == m.id) =
      some m := by
  induction ms with
  | nil => simp at h
  | cons y ys ih =>
    by_cases hy : y.id = m.id
    · simp [hy]
    · have hyb : ¬ ((y.id == m.id) = true) := by simp [hy]
      rw [List.map_cons, if_neg hyb]
      have hstep : List.find? (fun x => x.id == m.id)
          (y :: (ys.map fun x => if x.id == m.id then m else x)) =
          List.find? (fun x => x.id == m.id) (ys.map fun x => if x.id == m.id then m else x) :=
        List.find?_cons_of_neg _ hyb
      rw [hstep]
      apply ih
      obtain ⟨x, hx, hxid⟩ := h
      rcases List.mem_cons.mp hx with rfl | hx
      · exact absurd hxid hy
      · exact ⟨x, hx, hxid⟩

/-- setMatch updates the entry of the written id. -/
theorem getMatch_setMatch_self (st : ServerState) (m : GameMatch) :
    getMatch (setMatch st m) m.id = some m := by
  unfold getMatch
  rw [setMatch_activeMatches]
  split
  case isTrue h =>
    obtain ⟨x, hx, hpx⟩ := List.find?_isSome.mp h
    exact find?_map_replace _ _ ⟨x, hx, by simpa using hpx⟩
  case isFalse h =>
    rw [List.find?_append]
    have hn : st.activeMatches.find? (fun x => x.id == m.id) = none := by
      cases hfx : st.activeMatches.find? (fun x => x.id == m.id) with
      | none => rfl
      | some x => rw [hfx] at h; simp at h
    simp [hn]

/-- setMatch leaves the entries of other ids alone. -/
theorem getMatch_setMatch_ne (st : ServerState) (m : GameMatch) (mid : String)
    (h : mid ≠ m.id) :
    getMatch (setMatch st m) mid = getMatch st mid := by
  unfold getMatch
  rw [setMatch_activeMatches]
  split
  · rw [List.find?_map]
    have hpred : ((fun x => x.id == mid) ∘ fun x => if x.id == m.id then m else x) =
        (fun x => x.id == mid) := by
      funext x
      by_cases hx : x.id = m.id
      · simp [Function.comp, hx, Ne.symm h]
      · simp [Function.comp, hx]
    rw [hpred]
    cases hfx : st.activeMatches.find? (fun x => x.id == mid) with
    | none => simp
    | some x =>
      have hx := List.find?_some hfx
      simp only [beq_iff_eq] at hx
      have hne : ¬ ((x.id == m.id) = true) := by
        simp only [beq_iff_eq, hx]
        exact h
      simp only [Option.map_some']
      rw [if_neg hne]
  · rw [List.find?_append]
    have : List.find? (fun x => x.id == mid) [m] = none := by simp [Ne.symm h]
    simp [this]

/-- With pairwise-distinct ids, a member is what find? by its id returns. -/
theorem find?_of_mem_nodup {ms : List GameMatch} {m : GameMatch}
    (hnd : (ms.map GameMatch.id).Nodup) (hm : m ∈ ms) :
    ms.find? (fun x => x.id == m.id) = some m := by
  induction ms with
  | nil => simp at hm
  | cons y ys ih =>
    simp only [List.map_cons, List.nodup_cons] at hnd
    rcases List.mem_cons.mp hm with hm | hm
    · subst hm
      simp
    · have hy : y.id ≠ m.id := by
        intro hcontra
        exact hnd.1 (hcontra ▸ List.mem_map_of_mem GameMatch.id hm)
      have hyb : ¬ ((y.id == m.id) = true) := by simp [hy]
      have hstep : List.find? (fun x => x.id == m.id) (y :: ys) =
          List.find? (fun x => x.id == m.id) ys := List.find?_cons_of_neg _ hyb
      rw [hstep]
      exact ih hnd.2 hm

/-- With pairwise-distinct match ids, a member is what the registry lookup
of its id returns. -/
theorem getMatch_of_mem_nodup {st : ServerState} {m : GameMatch}
    (hnd : (st.activeMatches.map GameMatch.id).Nodup) (hm : m ∈ st.activeMatches) :
    getMatch st m.id = some m := by
  unfold getMatch
  exact find?_of_mem_nodup hnd hm

/-- What the make_move scan found is a member match with a member player
whose socket has the sought id. -/
theorem findBySocket_mem {ms : List GameMatch} {sock : SockId}
    {m : GameMatch} {p : GamePlayer} (h : findBySocket ms sock = some (m, p)) :
    m ∈ ms ∧ p ∈ m.players ∧ p.socket = some sock := by
  induction ms with
  | nil => simp [findBySocket] at h
  | cons y ys ih =>
    unfold findBySocket at h
    cases hf : y.players.find? fun q => q.socket == some sock with
    | some q =>
      rw [List.findSome?_cons_of_isSome _ (by simp [hf])] at h
      simp only [hf, Option.map_some', Option.some.injEq, Prod.mk.injEq] at h
      obtain ⟨rfl, rfl⟩ := h
      refine ⟨List.mem_cons_self .., List.mem_of_find?_eq_some hf, ?_⟩
      simpa using List.find?_some hf
    | none =>
      rw [List.findSome?_cons_of_isNone _ (by simp [hf])] at h
      have hrec := ih (h := h)
      exact ⟨List.mem_cons_of_mem _ hrec.1, hrec.2⟩

/-- In-place update of one player's record keeps the id lookup, applying
the mutation to the found record. -/
theorem updatePlayer_find?_self {ps : List GamePlayer} {pid : String} {p : GamePlayer}
    (g : GamePlayer → GamePlayer) (hg : ∀ x, (g x).id = x.id)
    (hp : ps.find? (fun q => q.id == pid) = some p) :
    (updatePlayer ps pid g).find? (fun q => q.id == pid) = some (g p) := by
  unfold updatePlayer
  have hfn : ∀ x : GamePlayer, ((if x.id == pid then g x else x) : GamePlayer).id = x.id := by
    intro x
    by_cases hx : (x.id == pid) = true
    · simp [hx, hg]
    · simp [hx]
  rw [find?_id_map _ hfn, hp, Option.map_some']
  have hpe := List.find?_some hp
  simp only [beq_iff_eq] at hpe
  rw [if_pos (by simp [hpe])]

/-- In-place update of one player's record leaves other lookups alone. -/
theorem updatePlayer_find?_other {ps : List GamePlayer} {pid pid' : String}
    (g : GamePlayer → GamePlayer) (hg : ∀ x, (g x).id = x.id) (hne : pid' ≠ pid) :
    (updatePlayer ps pid g).find? (fun q => q.id == pid') =
      ps.find? (fun q => q.id == pid') := by
  unfold updatePlayer
  rw [List.find?_map]
  have hfn : ((fun q => q.id == pid') ∘ fun q => if q.id == pid then g q else q) =
      (fun q => q.id == pid') := by
    funext x
    simp only [Function.comp]
    by_cases hx : (x.id == pid) = true
    · rw [if_pos hx, hg]
    · rw [if_neg hx]
  rw [hfn]
  cases hfx : ps.find? (fun q => q.id == pid') with
  | none => simp
  | some q =>
    have hq : q.id = pid' := by simpa using List.find?_some hfx
    simp only [Option.map_some']
    rw [if_neg (by simp [hq, hne])]

/-- In-place update keeps the roster size. -/
theorem updatePlayer_length (ps : List GamePlayer) (pid : String)
    (g : GamePlayer → GamePlayer) :
    (updatePlayer ps pid g).length = ps.length := by
  simp [updatePlayer]

/-- Projections untouched by the mutation are unchanged across the list. -/
theorem updatePlayer_map_proj {β : Type} (ps : List GamePlayer) (pid : String)
    (g : GamePlayer → GamePlayer) (f : GamePlayer → β) (hfg : ∀ x, f (g x) = f x) :
    (updatePlayer ps pid g).map f = ps.map f := by
  unfold updatePlayer
  induction ps with
  | nil => rfl
  | cons x xs ih =>
    simp only [List.map_cons, ih]
    by_cases hx : (x.id == pid) = true
    · rw [if_pos hx, hfg]
    · rw [if_neg hx]

/-- The registry lookup ignores the closure and pending-task fields. -/
theorem getMatch_mk (st : ServerState) (c : List (SockId × String × String))
    (e : List String) (mid : String) :
    getMatch { st with closures := c, pendingStartEmits := e } mid = getMatch st mid := rfl

/-- The match object authCore hands back carries the joined match id. -/
theorem authCore_id (st : ServerState) (a : AuthInput) :
    (authCore st a).1.id = a.matchId := by
  have hid0 : ((getMatch st a.matchId).getD (createMatch a.matchId)).id = a.matchId := by
    cases hg : getMatch st a.matchId with
    | none => rfl
    | some m =>
      have hg' : st.activeMatches.find? (fun x => x.id == a.matchId) = some m := hg
      simpa using List.find?_some hg'
  simp only [authCore]
  repeat' split
  all_goals exact hid0

/-- After authenticate, the registry holds the authCore match under the
joined id. -/
theorem authenticate_getMatch (st : ServerState) (a : AuthInput) :
    getMatch (authenticate st a).1 a.matchId = some (authCore st a).1 := by
  have h1 : getMatch (authenticate st a).1 a.matchId =
      getMatch (setMatch st (authCore st a).1) a.matchId := rfl
  rw [h1, ← authCore_id st a]
  exact getMatch_setMatch_self st _

/-- authenticate leaves every other match alone. -/
theorem authenticate_getMatch_ne (st : ServerState) (a : AuthInput) (mid : String)
    (h : mid ≠ a.matchId) :
    getMatch (authenticate st a).1 mid = getMatch st mid := by
  have h1 : getMatch (authenticate st a).1 mid =
      getMatch (setMatch st (authCore st a).1) mid := rfl
  rw [h1]
  exact getMatch_setMatch_ne st _ mid (by rw [authCore_id]; exact h)

/-- The events authenticate emits, as a function of the authCore result. -/
theorem authenticate_events (st : ServerState) (a : AuthInput) :
    (authenticate st a).2 =
      (Event.emit a.sock (Msg.authenticated a.pid
          (((authCore st a).1.players.find? fun p => p.id == a.pid).getD (newPlayer a)).username
          a.matchId
          (((authCore st a).1.players.find? fun p => p.id == a.pid).getD (newPlayer a)).symbol
          (authCore st a).1.status) ::
        (if (authCore st a).1.status == "playing" && !(authCore st a).2 then
          [Event.emit a.sock (Msg.gameState (authCore st a).1.board
            (authCore st a).1.currentPlayer (roster (authCore st a).1)
            (((authCore st a).1.players.find? fun p => p.id == a.pid).getD (newPlayer a)).symbol)]
        else []), false) := rfl

/-- An in-place update misses entirely when the id is absent. -/
theorem updatePlayer_not_found {ps : List GamePlayer} {pid : String}
    (g : GamePlayer → GamePlayer)
    (h : ps.find? (fun q => q.id == pid) = none) :
    updatePlayer ps pid g = ps := by
  unfold updatePlayer
  rw [List.find?_eq_none] at h
  induction ps with
  | nil => rfl
  | cons x xs ih =>
    have hx : ¬ ((x.id == pid) = true) := h x (List.mem_cons_self ..)
    simp only [List.map_cons, if_neg hx]
    rw [ih fun y hy => h y (List.mem_cons_of_mem _ hy)]

/-- Updating the joining id over roster-plus-fresh-entry touches only the
fresh entry. -/
theorem updatePlayer_append_new {ps : List GamePlayer} (a : AuthInput)
    (g : GamePlayer → GamePlayer)
    (hfp : ps.find? (fun q => q.id == a.pid) = none) :
    updatePlayer (ps ++ [newPlayer a]) a.pid g = ps ++ [g (newPlayer a)] := by
  have hupd := updatePlayer_not_found g hfp
  unfold updatePlayer
  rw [List.map_append]
  unfold updatePlayer at hupd
  rw [hupd]
  simp [newPlayer]

/-- authCore on a reconnection (the identity is already a participant):
matchStarting is off, the match fields other than startedAt are untouched,
and the roster is the stored one with the identity rebound (and possibly a
refreshed registration flag). -/
theorem authCore_reconnect (st : ServerState) (a : AuthInput) (m : GameMatch) (p : GamePlayer)
    (hm : getMatch st a.matchId = some m)
    (hp : m.players.find? (fun q => q.id == a.pid) = some p) :
    (authCore st a).2 = false ∧
    (authCore st a).1.board = m.board ∧
    (authCore st a).1.currentPlayer = m.currentPlayer ∧
    (authCore st a).1.status = m.status ∧
    (authCore st a).1.winner = m.winner ∧
    ((authCore st a).1.players =
        updatePlayer m.players a.pid (fun q => { q with socket := some a.sock }) ∨
     (authCore st a).1.players =
        updatePlayer (updatePlayer m.players a.pid (fun q => { q with socket := some a.sock }))
          a.pid (fun q => { q with registeredWithSDK := a.joinOk })) := by
  have hgsock : ∀ x : GamePlayer,
      ((({ x with socket := some a.sock }) : GamePlayer)).id = x.id := fun x => rfl
  have hfind1 : (updatePlayer m.players a.pid
        (fun q => { q with socket := some a.sock })).find? (fun q => q.id == a.pid) =
      some { p with socket := some a.sock } :=
    updatePlayer_find?_self _ hgsock hp
  cases hr : p.registeredWithSDK with
  | true =>
    by_cases hc : authStep4Cond { m with players := updatePlayer m.players a.pid (fun q => { q with socket := some a.sock }) } = true
    · simp [authCore, hm, hp, hfind1, hr, hc, authWillStart]
    · simp [authCore, hm, hp, hfind1, hr, hc, authWillStart]
  | false =>
    by_cases hc : authStep4Cond { m with players := updatePlayer m.players a.pid (fun q => { q with socket := some a.sock }) } = true
    · simp [authCore, hm, hp, hfind1, hr, hc, authWillStart]
    · simp [authCore, hm, hp, hfind1, hr, hc, authWillStart]

/-- authCore when the second distinct identity joins a waiting one-player
match: both role tokens are assigned in join order, the turn owner is set
to X, and the match moves to playing, with matchStarting on. -/
theorem authCore_secondJoin (st : ServerState) (a : AuthInput) (m : GameMatch) (p0 : GamePlayer)
    (hm : getMatch st a.matchId = some m)
    (hw : m.status = "waiting")
    (hone : m.players = [p0])
    (hne : p0.id ≠ a.pid) :
    authCore st a =
      ({ m with
          players := [{ p0 with symbol := some "X" },
            { id := a.pid, username := a.username, socket := some a.sock,
              symbol := some "O", registeredWithSDK := a.joinOk }],
          currentPlayer := "X", status := "playing",
          startedAt := m.startedAt || a.startOk }, true) := by
  have hfp : m.players.find? (fun q => q.id == a.pid) = none := by
    rw [hone]
    simp [hne]
  simp [authCore, hm, hfp, hone, hw, newPlayer, updatePlayer, hne, assignSymbols,
    authStep4Cond, authWillStart]

/-- authCore when a third distinct identity joins a two-player match: the
roster grows to three, no symbol is assigned, and status is untouched. -/
theorem authCore_thirdJoin (st : ServerState) (a : AuthInput) (m : GameMatch)
    (hm : getMatch st a.matchId = some m)
    (hfp : m.players.find? (fun q => q.id == a.pid) = none)
    (hlen : m.players.length = 2) :
    authCore st a =
      ({ m with
          players := m.players ++
            [{ id := a.pid, username := a.username, socket := some a.sock,
               symbol := none, registeredWithSDK := a.joinOk }],
          startedAt := m.startedAt || a.startOk }, false) := by
  have happ : updatePlayer (m.players ++ [newPlayer a]) a.pid (fun q => { q with registeredWithSDK := a.joinOk }) = m.players ++ [{ id := a.pid, username := a.username, socket := some a.sock, symbol := none, registeredWithSDK := a.joinOk }] := by
    rw [updatePlayer_append_new a _ hfp]
    simp [newPlayer]
  simp only [newPlayer] at happ
  simp [authCore, hm, hfp, hlen, newPlayer, happ, authStep4Cond, authWillStart]

/-- An accepted move reduces make_move to its terminal-check dispatch. -/
theorem makeMove_accepted (st : ServerState) (sock : SockId) (row col : Option Int)
    (startOk resOk : Bool) (m : GameMatch) (p : GamePlayer) (ri ci : Nat)
    (hfind : findBySocket st.activeMatches sock = some (m, p))
    (hs : m.status = "playing") (ht : p.symbol = some m.currentPlayer)
    (hb : (jsLt row 0 || jsGt row 2 || jsLt col 0 || jsGt col 2) = false)
    (hri : toIdx row = some ri) (hci : toIdx col = some ci)
    (hcell : cell m.board ri ci = "") :
    makeMove st sock row col startOk resOk =
      (match checkWinner (setCell m.board ri ci (p.symbol.getD "")) with
       | some w => winBranch st m (setCell m.board ri ci (p.symbol.getD "")) w startOk resOk
       | none =>
         if isBoardFull (setCell m.board ri ci (p.symbol.getD "")) then
           drawBranch st m (setCell m.board ri ci (p.symbol.getD "")) startOk resOk
         else
           (setMatch st { m with board := setCell m.board ri ci (p.symbol.getD ""),
                                 currentPlayer := flipSym m.currentPlayer },
            [Event.room m.id (Msg.moveMade row col p.symbol (flipSym m.currentPlayer)
               (setCell m.board ri ci (p.symbol.getD "")))], false)) := by
  simp [makeMove, hfind, hs, ht, hb, hri, hci, hcell]

/-- Shape of the win path state: one setMatch of a record keeping the
roster and the id, concluding or leaving the status as it was. -/
theorem winBranch_shape (st : ServerState) (m : GameMatch) (b' : Board) (w : String)
    (startOk resOk : Bool) :
    ∃ mX, (winBranch st m b' w startOk resOk).1 = setMatch st mX ∧
      mX.players = m.players ∧ mX.id = m.id ∧
      (mX.status = "finished" ∨ mX.status = m.status) := by
  by_cases hB : ((m.players.find? fun q => q.symbol == some w).isSome
      && (m.players.find? fun q => q.symbol != some w).isSome) = true
  · have hX : (winBranch st m b' w startOk resOk).1 = setMatch st { m with board := b', winner := some w, currentPlayer := w, startedAt := m.startedAt || startOk, status := "finished" } := by
      simp [winBranch, hB]
    exact ⟨_, hX, rfl, rfl, Or.inl rfl⟩
  · have hX : (winBranch st m b' w startOk resOk).1 = setMatch st { m with board := b', winner := some w, currentPlayer := w } := by
      simp [winBranch, hB]
    exact ⟨_, hX, rfl, rfl, Or.inr rfl⟩

/-- Shape of the draw path state. -/
theorem drawBranch_shape (st : ServerState) (m : GameMatch) (b' : Board)
    (startOk resOk : Bool) :
    ∃ mX, (drawBranch st m b' startOk resOk).1 = setMatch st mX ∧
      mX.players = m.players ∧ mX.id = m.id ∧
      (mX.status = "finished" ∨ mX.status = m.status) := by
  by_cases hB : 2 ≤ m.players.length
  · have hX : (drawBranch st m b' startOk resOk).1 = setMatch st { m with board := b', winner := none, startedAt := m.startedAt || startOk, status := "finished" } := by
      simp [drawBranch, hB]
    exact ⟨_, hX, rfl, rfl, Or.inl rfl⟩
  · have hX : (drawBranch st m b' startOk resOk).1 = setMatch st { m with board := b', winner := none } := by
      simp [drawBranch, hB]
    exact ⟨_, hX, rfl, rfl, Or.inr rfl⟩

/-- make_move either rejects (or throws) leaving the state alone, or
writes back one match record with the same roster and id, the status
either concluded or untouched. -/
theorem makeMove_shape (st : ServerState) (sock : SockId) (row col : Option Int)
    (startOk resOk : Bool) :
    (makeMove st sock row col startOk resOk).1 = st ∨
    ∃ m p mX, findBySocket st.activeMatches sock = some (m, p) ∧
      (makeMove st sock row col startOk resOk).1 = setMatch st mX ∧
      mX.players = m.players ∧ mX.id = m.id ∧
      (mX.status = "finished" ∨ mX.status = m.status) := by
  unfold makeMove
  cases hf : findBySocket st.activeMatches sock with
  | none => exact Or.inl (by simp)
  | some mp =>
    obtain ⟨m, p⟩ := mp
    by_cases h1 : (m.status != "playing") = true
    · simp only [h1, if_true]
      exact Or.inl (by simp)
    · simp only [h1, if_false]
      by_cases h2 : (p.symbol != some m.currentPlayer) = true
      · simp only [h2, if_true]
        exact Or.inl (by simp)
      · simp only [h2, if_false]
        by_cases h3 : (jsLt row 0 || jsGt row 2 || jsLt col 0 || jsGt col 2) = true
        · simp only [h3, if_true]
          exact Or.inl (by simp)
        · simp only [h3, if_false]
          cases hri : toIdx row with
          | none => exact Or.inl (by simp)
          | some ri =>
            cases hci : toIdx col with
            | none => exact Or.inl (by simp)
            | some ci =>
              by_cases h4 : (cell m.board ri ci != "") = true
              · simp only [h4, if_true]
                exact Or.inl (by simp)
              · simp only [h4, if_false]
                cases hw : checkWinner (setCell m.board ri ci (p.symbol.getD "")) with
                | some w =>
                  obtain ⟨mX, hX, hXp, hXi, hXs⟩ :=
                    winBranch_shape st m (setCell m.board ri ci (p.symbol.getD "")) w startOk resOk
                  exact Or.inr ⟨m, p, mX, rfl, hX, hXp, hXi, hXs⟩
                | none =>
                  by_cases h5 : isBoardFull (setCell m.board ri ci (p.symbol.getD "")) = true
                  · simp only [h5, if_true]
                    obtain ⟨mX, hX, hXp, hXi, hXs⟩ :=
                      drawBranch_shape st m (setCell m.board ri ci (p.symbol.getD "")) startOk resOk
                    exact Or.inr ⟨m, p, mX, rfl, hX, hXp, hXi, hXs⟩
                  · simp only [h5, if_false]
                    exact Or.inr ⟨m, p, _, rfl, rfl, rfl, rfl, Or.inr rfl⟩

/-- Match-list analog of find?_filter_other. -/
theorem mfind?_filter_other (ms : List GameMatch) (mid mid0 : String) (h : mid ≠ mid0) :
    (ms.filter fun q => q.id != mid0).find? (fun q => q.id == mid) =
      ms.find? (fun q => q.id == mid) := by
  rw [List.find?_filter]
  congr 1
  funext q
  by_cases hq : q.id = mid
  · subst hq
    simp [h]
  · simp [hq]

/-- Match-list analog of find?_filter_self. -/
theorem mfind?_filter_self (ms : List GameMatch) (mid : String) :
    (ms.filter fun q => q.id != mid).find? (fun q => q.id == mid) = none := by
  rw [List.find?_filter]
  simp only [List.find?_eq_none]
  intro q _
  by_cases hq : q.id = mid <;> simp [hq]

/-- Registry lookups only depend on the match list. -/
theorem getMatch_ext {st st' : ServerState} (h : st.activeMatches = st'.activeMatches)
    (mid : String) : getMatch st mid = getMatch st' mid := by
  unfold getMatch
  rw [h]

/-- The match_started timer step never touches the registry. -/
theorem fire_activeMatches (st : ServerState) (mid : String) :
    (fireMatchStarted st mid).1.activeMatches = st.activeMatches := by
  simp only [fireMatchStarted]
  split
  · split <;> rfl
  · rfl

/-- The disconnect handler either finds nothing to do or nulls the closure
participant's socket in the closure match. -/
theorem disconnect_state (st : ServerState) (sock : SockId) :
    (disconnect st sock).1 = st ∨
    ∃ c m, st.closures.find? (fun x => x.1 == sock) = some c ∧
      getMatch st c.2.2 = some m ∧
      (disconnect st sock).1.activeMatches =
        (setMatch st { m with players := updatePlayer m.players c.2.1 (fun p => { p with socket := none }) }).activeMatches := by
  unfold disconnect
  cases hc : st.closures.find? (fun x => x.1 == sock) with
  | none => exact Or.inl rfl
  | some c =>
    dsimp only
    cases hm : getMatch st c.2.2 with
    | none => exact Or.inl rfl
    | some m =>
      dsimp only
      exact Or.inr ⟨c, m, rfl, hm, rfl⟩

/-- The grace-timer step either leaves a given id's entry alone, deletes
it, or strips the timed-out participant from its roster. -/
theorem graceFire_getMatch (st : ServerState) (mid0 pid0 mid : String) :
    getMatch (graceFire st mid0 pid0) mid = getMatch st mid ∨
    getMatch (graceFire st mid0 pid0) mid = none ∨
    ∃ m, getMatch st mid = some m ∧
      getMatch (graceFire st mid0 pid0) mid =
        some { m with players := m.players.filter fun q => q.id != pid0 } := by
  unfold graceFire
  split
  case isFalse => exact Or.inl rfl
  case isTrue hpend =>
    dsimp only
    split
    · exact Or.inl rfl
    · next m hg =>
      split
      · exact Or.inl rfl
      · next p hfp =>
        split
        case isFalse => exact Or.inl rfl
        case isTrue hsock =>
          have hmidm : m.id = mid0 := by
            have hg' : ({ st with pendingGrace := st.pendingGrace.erase (mid0, pid0) } :
                ServerState).activeMatches.find? (fun x => x.id == mid0) = some m := hg
            simpa using List.find?_some hg'
          split
          case isTrue hempty =>
            by_cases hmid : mid = mid0
            · subst hmid
              refine Or.inr (Or.inl ?_)
              exact mfind?_filter_self _ mid
            · refine Or.inl ?_
              exact mfind?_filter_other _ mid mid0 hmid
          case isFalse hempty =>
            by_cases hmid : mid = mid0
            · refine Or.inr (Or.inr ⟨m, ?_, ?_⟩)
              · rw [hmid]
                exact hg
              · rw [hmid, show mid0 = ({ m with players := m.players.filter fun q => q.id != pid0 } : GameMatch).id from hmidm.symm]
                exact getMatch_setMatch_self _ _
            · refine Or.inl ?_
              rw [getMatch_setMatch_ne _ _ _ (by
                rw [show ({ m with players := m.players.filter fun q => q.id != pid0} :
                  GameMatch).id = m.id from rfl, hmidm]; exact hmid)]
              rfl

/-- authCore either switches the match to playing (step 7) or leaves the
status as stored. -/
theorem authCore_status (st : ServerState) (a : AuthInput) :
    (authCore st a).1.status = "playing" ∨
    (authCore st a).1.status = ((getMatch st a.matchId).getD (createMatch a.matchId)).status := by
  simp only [authCore]
  repeat' split
  all_goals first
    | exact Or.inl rfl
    | exact Or.inr rfl

/-- authCore roster after a new-identity join: the fresh entry is appended
(with the join-report outcome), and symbols are assigned only on
matchStarting. -/
theorem authCore_new_players (st : ServerState) (a : AuthInput)
    (hrec : ((getMatch st a.matchId).getD (createMatch a.matchId)).players.find?
      (fun q => q.id == a.pid) = none) :
    (authCore st a).1.players =
      (if (authCore st a).2 then
        assignSymbols (updatePlayer
          (((getMatch st a.matchId).getD (createMatch a.matchId)).players ++ [newPlayer a])
          a.pid (fun q => { q with registeredWithSDK := a.joinOk }))
      else
        updatePlayer
          (((getMatch st a.matchId).getD (createMatch a.matchId)).players ++ [newPlayer a])
          a.pid (fun q => { q with registeredWithSDK := a.joinOk })) := by
  by_cases hc : authStep4Cond { (getMatch st a.matchId).getD (createMatch a.matchId) with players := ((getMatch st a.matchId).getD (createMatch a.matchId)).players ++ [newPlayer a] } = true
  · simp [authCore, hrec, hc]
    split <;> rfl
  · simp [authCore, hrec, hc]
    split <;> rfl

/-- matchStarting fires only for a second distinct identity joining a
waiting one-player match. -/
theorem authCore_willStart_char (st : ServerState) (a : AuthInput)
    (h : (authCore st a).2 = true) :
    ((getMatch st a.matchId).getD (createMatch a.matchId)).status = "waiting" ∧
    ((getMatch st a.matchId).getD (createMatch a.matchId)).players.find?
      (fun q => q.id == a.pid) = none ∧
    ((getMatch st a.matchId).getD (createMatch a.matchId)).players.length = 1 := by
  cases hrec : ((getMatch st a.matchId).getD (createMatch a.matchId)).players.find?
      (fun q => q.id == a.pid) with
  | some p =>
    exfalso
    simp [authCore, authWillStart, hrec] at h
  | none =>
    by_cases hc : authStep4Cond { (getMatch st a.matchId).getD (createMatch a.matchId) with players := ((getMatch st a.matchId).getD (createMatch a.matchId)).players ++ [newPlayer a] } = true
    · simp [authCore, authWillStart, hrec, hc,
        updatePlayer_append_new a _ hrec] at h
      exact ⟨h.2, rfl, by omega⟩
    · simp [authCore, authWillStart, hrec, hc,
        updatePlayer_append_new a _ hrec] at h
      exact ⟨h.2, rfl, by omega⟩

/-- The player lookup only depends on the registry list. -/
theorem findPlayer_ext {st st' : ServerState} (h : st.activeMatches = st'.activeMatches)
    (mid pid : String) : findPlayer st mid pid = findPlayer st' mid pid := by
  unfold findPlayer
  rw [getMatch_ext h]

/-- A stored symbol can only change at the role-assigning second join of
that session. -/
theorem roles_frame (st : ServerState) (stp : Step) (mid pid : String)
    (p q : GamePlayer)
    (hnd : (st.activeMatches.map GameMatch.id).Nodup)
    (h1 : findPlayer st mid pid = some p)
    (h2 : findPlayer (applyStep st stp).1 mid pid = some q)
    (hne : q.symbol ≠ p.symbol) :
    isSecondJoin st stp mid := by
  obtain ⟨m₁, hg1, hf1⟩ : ∃ m₁, getMatch st mid = some m₁ ∧
      m₁.players.find? (fun x => x.id == pid) = some p := by
    unfold findPlayer at h1
    cases hg : getMatch st mid with
    | none => rw [hg] at h1; simp at h1
    | some m₁ => rw [hg] at h1; exact ⟨m₁, rfl, by simpa using h1⟩
  have hsame : ∀ (hq : findPlayer st mid pid = some q), False := by
    intro hq
    have hqp : q = p := Option.some.inj (hq.symm.trans h1)
    exact hne (by rw [hqp])
  cases stp with
  | authFail s => exact absurd h2 hsame
  | fire mid0 =>
    apply absurd h2
    intro h2
    apply hsame
    rw [← h2]
    exact findPlayer_ext (fire_activeMatches st mid0).symm mid pid
  | grace mid0 pid0 =>
    exfalso
    simp only [applyStep] at h2
    rcases graceFire_getMatch st mid0 pid0 mid with hcase | hcase | ⟨m, hgm, hcase⟩
    · apply hsame
      unfold findPlayer at h2 ⊢
      rw [hcase] at h2
      exact h2
    · unfold findPlayer at h2
      rw [hcase] at h2
      exact Option.noConfusion h2
    · unfold findPlayer at h2
      rw [hcase] at h2
      have hm1 : m = m₁ := Option.some.inj (hgm.symm.trans hg1)
      subst hm1
      have h2'' : (m.players.filter fun x => x.id != pid0).find?
          (fun x => x.id == pid) = some q := h2
      by_cases hpp : pid = pid0
      · rw [hpp, find?_filter_self] at h2''
        exact Option.noConfusion h2''
      · rw [find?_filter_other _ _ _ hpp] at h2''
        have hqp : q = p := Option.some.inj (h2''.symm.trans hf1)
        exact hne (by rw [hqp])
  | disc s =>
    exfalso
    simp only [applyStep] at h2
    rcases disconnect_state st s with hcase | ⟨c, m, hc, hm, hcase⟩
    · apply hsame
      rw [← h2, hcase]
    · have h2' : findPlayer (setMatch st { m with players := updatePlayer m.players c.2.1 (fun x => { x with socket := none }) }) mid pid = some q := by
        rw [← h2]
        exact (findPlayer_ext hcase mid pid).symm
      have hmide : m.id = c.2.2 := by
        have hm' : st.activeMatches.find? (fun x => x.id == c.2.2) = some m := hm
        simpa using List.find?_some hm'
      by_cases hmm : mid = c.2.2
      · have hm1 : m = m₁ := by
          apply Option.some.inj
          rw [← hm, ← hg1, hmm]
        subst hm1
        have hGm : getMatch (setMatch st { m with players := updatePlayer m.players c.2.1 (fun x => { x with socket := none }) }) mid = some { m with players := updatePlayer m.players c.2.1 (fun x => { x with socket := none }) } := by
          rw [show mid = ({ m with players := updatePlayer m.players c.2.1 (fun x => { x with socket := none }) } : GameMatch).id from hmm.trans hmide.symm]
          exact getMatch_setMatch_self st _
        unfold findPlayer at h2'
        rw [hGm] at h2'
        have h2'' : (updatePlayer m.players c.2.1 (fun x => { x with socket := none })).find?
            (fun x => x.id == pid) = some q := h2'
        by_cases hpc : pid = c.2.1
        · have hf1' : m.players.find? (fun x => x.id == c.2.1) = some p := by
            rw [← hpc]
            exact hf1
          have hu := updatePlayer_find?_self (fun x => { x with socket := none })
            (fun x => rfl) hf1'
          rw [hpc] at h2''
          have hq : q = { p with socket := none } := (Option.some.inj (hu.symm.trans h2'')).symm
          exact hne (by rw [hq])
        · rw [updatePlayer_find?_other (fun x => { x with socket := none })
            (fun x => rfl) hpc] at h2''
          have hq : q = p := Option.some.inj (h2''.symm.trans hf1)
          exact hne (by rw [hq])
      · apply hsame
        unfold findPlayer at h2' ⊢
        rw [getMatch_setMatch_ne _ _ _ (by
          rw [show ({ m with players := updatePlayer m.players c.2.1 (fun x => { x with socket := none }) } : GameMatch).id = m.id from rfl, hmide]
          exact hmm)] at h2'
        exact h2'
  | move s r cc so ro =>
    exfalso
    simp only [applyStep] at h2
    rcases makeMove_shape st s r cc so ro with hcase | ⟨m, pl, mX, hf, hst', hXp, hXi, -⟩
    · apply hsame
      rw [← h2, hcase]
    · have h2' : findPlayer (setMatch st mX) mid pid = some q := by
        rw [← h2, hst']
      obtain ⟨hmem, -, -⟩ := findBySocket_mem hf
      have hgm : getMatch st m.id = some m := getMatch_of_mem_nodup hnd hmem
      by_cases hmm : mid = mX.id
      · have hmm' : mid = m.id := by rw [hmm, hXi]
        have hm1 : m = m₁ := by
          apply Option.some.inj
          rw [← hgm, ← hg1, hmm']
        have hGm := getMatch_setMatch_self st mX
        rw [← hmm] at hGm
        unfold findPlayer at h2'
        rw [hGm] at h2'
        have h2'' : mX.players.find? (fun x => x.id == pid) = some q := h2'
        rw [hXp, hm1] at h2''
        have hq : q = p := Option.some.inj (h2''.symm.trans hf1)
        exact hne (by rw [hq])
      · apply hsame
        unfold findPlayer at h2' ⊢
        rw [getMatch_setMatch_ne st mX mid hmm] at h2'
        exact h2'
  | auth a =>
    by_cases hmida : mid = a.matchId
    · subst hmida
      simp only [applyStep] at h2
      have hGm := authenticate_getMatch st a
      unfold findPlayer at h2
      rw [hGm] at h2
      have h2'' : (authCore st a).1.players.find? (fun x => x.id == pid) = some q := h2
      have hm0 : ((getMatch st a.matchId).getD (createMatch a.matchId)) = m₁ := by
        rw [hg1]
        rfl
      cases hrec : m₁.players.find? (fun x => x.id == a.pid) with
      | some pr =>
        exfalso
        obtain ⟨-, -, -, -, -, hpl⟩ := authCore_reconnect st a m₁ pr hg1 hrec
        rcases hpl with hply | hply
        · rw [hply] at h2''
          by_cases hpc : pid = a.pid
          · have hf1' : m₁.players.find? (fun x => x.id == a.pid) = some p := by
              rw [← hpc]
              exact hf1
            have hu := updatePlayer_find?_self (fun x => { x with socket := some a.sock })
              (fun x => rfl) hf1'
            rw [hpc] at h2''
            have hq : q = { p with socket := some a.sock } :=
              (Option.some.inj (hu.symm.trans h2'')).symm
            exact hne (by rw [hq])
          · rw [updatePlayer_find?_other (fun x => { x with socket := some a.sock })
              (fun x => rfl) hpc] at h2''
            have hq : q = p := Option.some.inj (h2''.symm.trans hf1)
            exact hne (by rw [hq])
        · rw [hply] at h2''
          by_cases hpc : pid = a.pid
          · have hf1' : m₁.players.find? (fun x => x.id == a.pid) = some p := by
              rw [← hpc]
              exact hf1
            have hu1 := updatePlayer_find?_self (fun x => { x with socket := some a.sock })
              (fun x => rfl) hf1'
            have hu2 := updatePlayer_find?_self (fun x => { x with registeredWithSDK := a.joinOk })
              (fun x => rfl) hu1
            rw [hpc] at h2''
            have hq : q = { p with socket := some a.sock, registeredWithSDK := a.joinOk } :=
              (Option.some.inj (hu2.symm.trans h2'')).symm
            exact hne (by rw [hq])
          · rw [updatePlayer_find?_other (fun x => { x with registeredWithSDK := a.joinOk })
              (fun x => rfl) hpc,
              updatePlayer_find?_other (fun x => { x with socket := some a.sock })
              (fun x => rfl) hpc] at h2''
            have hq : q = p := Option.some.inj (h2''.symm.trans hf1)
            exact hne (by rw [hq])
      | none =>
        cases hws : (authCore st a).2 with
        | true =>
          obtain ⟨hW, hF, hL⟩ := authCore_willStart_char st a hws
          exact ⟨a, rfl, rfl, hW, hF, hL⟩
        | false =>
          exfalso
          have hply := authCore_new_players st a (by rw [hm0]; exact hrec)
          rw [hws] at hply
          simp only [Bool.false_eq_true, if_false] at hply
          rw [hm0] at hply
          rw [hply] at h2''
          by_cases hpc : pid = a.pid
          · rw [hpc] at hf1
            exact Option.noConfusion (hrec.symm.trans hf1)
          · rw [updatePlayer_find?_other (fun x => { x with registeredWithSDK := a.joinOk })
              (fun x => rfl) hpc, List.find?_append, hf1] at h2''
            have hq : q = p := (Option.some.inj (show some p = some q from h2'')).symm
            exact hne (by rw [hq])
    · exfalso
      apply hsame
      simp only [applyStep] at h2
      unfold findPlayer at h2 ⊢
      rw [authenticate_getMatch_ne st a mid hmida] at h2
      exact h2

/-- No step moves a session's status back to waiting. -/
theorem status_no_revert (st : ServerState) (stp : Step) (mid : String)
    (m m' : GameMatch)
    (hnd : (st.activeMatches.map GameMatch.id).Nodup)
    (hm : getMatch st mid = some m)
    (hm' : getMatch (applyStep st stp).1 mid = some m')
    (h : m.status ≠ "waiting") : m'.status ≠ "waiting" := by
  cases stp with
  | authFail s =>
    have : m' = m := Option.some.inj (hm'.symm.trans hm)
    rw [this]
    exact h
  | fire mid0 =>
    simp only [applyStep] at hm'
    rw [getMatch_ext (fire_activeMatches st mid0) mid] at hm'
    have : m' = m := Option.some.inj (hm'.symm.trans hm)
    rw [this]
    exact h
  | grace mid0 pid0 =>
    simp only [applyStep] at hm'
    rcases graceFire_getMatch st mid0 pid0 mid with hcase | hcase | ⟨m₂, hgm, hcase⟩
    · rw [hcase] at hm'
      have : m' = m := Option.some.inj (hm'.symm.trans hm)
      rw [this]
      exact h
    · rw [hcase] at hm'
      exact Option.noConfusion hm'
    · have hm2 : m₂ = m := Option.some.inj (hgm.symm.trans hm)
      rw [hcase] at hm'
      have : m' = { m₂ with players := m₂.players.filter fun x => x.id != pid0 } :=
        Option.some.inj (hm'.symm)
      rw [this, show ({ m₂ with players := m₂.players.filter fun x => x.id != pid0 } :
        GameMatch).status = m₂.status from rfl, hm2]
      exact h
  | disc s =>
    simp only [applyStep] at hm'
    rcases disconnect_state st s with hcase | ⟨c, mc, hc, hmc, hcase⟩
    · rw [hcase] at hm'
      have : m' = m := Option.some.inj (hm'.symm.trans hm)
      rw [this]
      exact h
    · rw [getMatch_ext hcase mid] at hm'
      have hmide : mc.id = c.2.2 := by
        have hmc' : st.activeMatches.find? (fun x => x.id == c.2.2) = some mc := hmc
        simpa using List.find?_some hmc'
      by_cases hmm : mid = c.2.2
      · have hGm : getMatch (setMatch st { mc with players := updatePlayer mc.players c.2.1 (fun x => { x with socket := none }) }) mid = some { mc with players := updatePlayer mc.players c.2.1 (fun x => { x with socket := none }) } := by
          rw [show mid = ({ mc with players := updatePlayer mc.players c.2.1 (fun x => { x with socket := none }) } : GameMatch).id from hmm.trans hmide.symm]
          exact getMatch_setMatch_self st _
        rw [hGm] at hm'
        have hmcm : mc = m := by
          apply Option.some.inj
          rw [← hmc, ← hm, hmm]
        have : m' = { mc with players := updatePlayer mc.players c.2.1 (fun x => { x with socket := none }) } := Option.some.inj hm'.symm
        rw [this, show ({ mc with players := updatePlayer mc.players c.2.1 (fun x => { x with socket := none }) } : GameMatch).status = mc.status from rfl, hmcm]
        exact h
      · rw [getMatch_setMatch_ne _ _ _ (by
          rw [show ({ mc with players := updatePlayer mc.players c.2.1 (fun x => { x with socket := none }) } : GameMatch).id = mc.id from rfl, hmide]
          exact hmm)] at hm'
        have : m' = m := Option.some.inj (hm'.symm.trans hm)
        rw [this]
        exact h
  | move s r cc so ro =>
    simp only [applyStep] at hm'
    rcases makeMove_shape st s r cc so ro with hcase | ⟨mF, pl, mX, hf, hst', hXp, hXi, hXs⟩
    · rw [hcase] at hm'
      have : m' = m := Option.some.inj (hm'.symm.trans hm)
      rw [this]
      exact h
    · rw [hst'] at hm'
      obtain ⟨hmem, -, -⟩ := findBySocket_mem hf
      have hgm : getMatch st mF.id = some mF := getMatch_of_mem_nodup hnd hmem
      by_cases hmm : mid = mX.id
      · rw [show mid = mX.id from hmm] at hm'
        rw [getMatch_setMatch_self st mX] at hm'
        have hmx : m' = mX := Option.some.inj hm'.symm
        have hmFm : mF = m := by
          apply Option.some.inj
          rw [← hgm, ← hm, hmm, hXi]
        rcases hXs with hXs | hXs
        · rw [hmx, hXs]
          decide
        · rw [hmx, hXs, hmFm]
          exact h
      · rw [getMatch_setMatch_ne st mX mid hmm] at hm'
        have : m' = m := Option.some.inj (hm'.symm.trans hm)
        rw [this]
        exact h
  | auth a =>
    simp only [applyStep] at hm'
    by_cases hmida : mid = a.matchId
    · subst hmida
      rw [authenticate_getMatch st a] at hm'
      have hmx : m' = (authCore st a).1 := Option.some.inj hm'.symm
      rcases authCore_status st a with hs | hs
      · rw [hmx, hs]
        decide
      · rw [hmx, hs, show (getMatch st a.matchId).getD (createMatch a.matchId) = m by rw [hm]; rfl]
        exact h
    · rw [authenticate_getMatch_ne st a mid hmida] at hm'
      have : m' = m := Option.some.inj (hm'.symm.trans hm)
      rw [this]
      exact h

/-- The switched turn owner always differs from the previous one. -/
theorem flipSym_ne (s : String) : flipSym s ≠ s := by
  unfold flipSym
  by_cases h : (s == "X") = true
  · rw [if_pos h]
    have hs : s = "X" := by simpa using h
    rw [hs]
    decide
  · rw [if_neg h]
    have hs : ¬ s = "X" := by simpa using h
    exact fun hc => hs hc.symm

/-- C4: every rejected move submission leaves the server state entirely
unchanged, sends the offending connection alone the specific reason
string, and does not end the connection (the handler returns without
throwing and emits no disconnect). -/
theorem C4_rejected_move_frame (st : ServerState) (sock : SockId) (row col : Option Int)
    (startOk resOk : Bool) :
    (findBySocket st.activeMatches sock = none →
      makeMove st sock row col startOk resOk =
        (st, [Event.emit sock (Msg.errorMsg "Not authenticated")], false)) ∧
    (∀ m p, findBySocket st.activeMatches sock = some (m, p) →
      m.status ≠ "playing" →
      makeMove st sock row col startOk resOk =
        (st, [Event.emit sock (Msg.errorMsg "Match not in playing state")], false)) ∧
    (∀ m p, findBySocket st.activeMatches sock = some (m, p) →
      m.status = "playing" → p.symbol ≠ some m.currentPlayer →
      makeMove st sock row col startOk resOk =
        (st, [Event.emit sock (Msg.errorMsg "Not your turn")], false)) ∧
    (∀ m p, findBySocket st.activeMatches sock = some (m, p) →
      m.status = "playing" → p.symbol = some m.currentPlayer →
      (jsLt row 0 || jsGt row 2 || jsLt col 0 || jsGt col 2) = true →
      makeMove st sock row col startOk resOk =
        (st, [Event.emit sock (Msg.errorMsg "Invalid move coordinates")], false)) ∧
    (∀ m p ri ci, findBySocket st.activeMatches sock = some (m, p) →
      m.status = "playing" → p.symbol = some m.currentPlayer →
      (jsLt row 0 || jsGt row 2 || jsLt col 0 || jsGt col 2) = false →
      toIdx row = some ri → toIdx col = some ci →
      cell m.board ri ci ≠ "" →
      makeMove st sock row col startOk resOk =
        (st, [Event.emit sock (Msg.errorMsg "Cell already occupied")], false)) := by
  refine ⟨?_, ?_, ?_, ?_, ?_⟩
  · intro h
    simp [makeMove, h]
  · intro m p hf hs
    simp [makeMove, hf, hs]
  · intro m p hf hs ht
    simp [makeMove, hf, hs, ht]
  · intro m p hf hs ht hb
    simp [makeMove, hf, hs, ht, hb]
  · intro m p ri ci hf hs ht hb hri hci hc
    simp [makeMove, hf, hs, ht, hb, hri, hci, hc]

/-- C4 witness: a wrong-turn submission on the concrete playing match is
rejected with "Not your turn" and changes nothing. -/
theorem C4_rejected_move_frame_witness :
    makeMove stAB 2 (some 0) (some 0) true true =
      (stAB, [Event.emit 2 (Msg.errorMsg "Not your turn")], false) :=
  (C4_rejected_move_frame stAB 2 (some 0) (some 0) true true).2.2.1 mAB pAB2
    (by decide) (by decide) (by decide)

/-- C7: the bounds guard uses row < 0 || row > 2, both false for a NaN
coordinate (a non-numeric payload coerced with Number), so the guard
passes; a NaN row then makes board[row][col] throw a TypeError with no
error message sent, and a NaN col alone is reported as "Cell already
occupied" instead of out-of-bounds. -/
theorem C7_bounds_check_bug :
    (jsLt (none : Option Int) 0 || jsGt (none : Option Int) 2
      || jsLt (some 0) 0 || jsGt (some 0) 2) = false ∧
    makeMove stAB 1 none (some 0) true true = (stAB, [], true) ∧
    makeMove stAB 1 (some 0) none true true =
      (stAB, [Event.emit 1 (Msg.errorMsg "Cell already occupied")], false) := by decide

/-- C10: after a two-player start, a disconnect inside the 250ms deferral
window nulls the stored socket, and the deferred match_started emission
then dereferences the null handle: the timer body throws and no
participant receives match_started. -/
theorem C10_deferred_start_bug :
    "m1" ∈ stD.pendingStartEmits ∧
    ((getMatch stD "m1").getD (createMatch "m1")).status = "playing" ∧
    ((findPlayer stD "m1" "p1").getD (newPlayer aIn1)).socket = none ∧
    (fireMatchStarted stD "m1").2 = ([], true) := by decide

/-- C2 counterexample: in the reachable one-player playing match mCE, the
accepted winning move broadcasts game_finished{winner: X} but the session
status stays "playing": the winner/loser roster lookup fails, the report
throws, and the catch skips the status update, so the terminal transition
is skipped even though the move was terminal. -/
theorem C2_counterexample :
    mCE.status = "playing" ∧
    checkWinner (setCell mCE.board 0 2 "X") = some "X" ∧
    (makeMove stCE 1 (some 0) (some 2) true true).2.1 =
      [Event.room "m1" (Msg.gameFinished (some "X") (setCell mCE.board 0 2 "X"))] ∧
    ((getMatch (makeMove stCE 1 (some 0) (some 2) true true).1 "m1").getD
      (createMatch "m1")).status = "playing" ∧
    ((getMatch (makeMove stCE 1 (some 0) (some 2) true true).1 "m1").getD
      (createMatch "m1")).status ≠ "finished" := by decide

/-- C5 counterexample: p1's live binding is socket 3 (after supersession),
yet a disconnect of the stale socket 1 nulls p1's current binding: the
disconnect handler nulls via its closure without checking that the
disconnecting socket is the one currently bound. -/
theorem C5_counterexample :
    ((findPlayer stSup "m1" "p1").getD (newPlayer aIn1)).socket = some 3 ∧
    ((findPlayer (disconnect stSup 1).1 "m1" "p1").getD (newPlayer aIn1)).socket =
      none := by decide

/-- C8 counterexample: the reachable state st3 holds three distinct
participant identities in one session, refuting the capacity-2 bound. -/
theorem C8_counterexample :
    ((getMatch st3 "m1").getD (createMatch "m1")).players.length = 3 ∧
    ((getMatch st3 "m1").getD (createMatch "m1")).players.map GamePlayer.id =
      ["p1", "p2", "p3"] := by decide

/-- C9 counterexample: on a board where both symbols complete a line, "O"
holds a full row yet checkWinner does not return it - the claimed
characterization "returns r iff some line holds r" fails in the
right-to-left direction. -/
theorem C9_counterexample :
    hasLine [["X", "X", "X"], ["O", "O", "O"], ["", "", ""]] "O" ∧
    checkWinner [["X", "X", "X"], ["O", "O", "O"], ["", "", ""]] ≠ some "O" := by decide

/-- C3: on every accepted move, a non-terminal board hands the turn to the
opposite role (strictly different from the previous owner), and a winning
board sets the turn owner to the winner's role as the terminal marker. -/
theorem C3_turn_alternation (st : ServerState) (sock : SockId) (row col : Option Int)
    (startOk resOk : Bool) (m : GameMatch) (p : GamePlayer) (ri ci : Nat)
    (hfind : findBySocket st.activeMatches sock = some (m, p))
    (hs : m.status = "playing") (ht : p.symbol = some m.currentPlayer)
    (hb : (jsLt row 0 || jsGt row 2 || jsLt col 0 || jsGt col 2) = false)
    (hri : toIdx row = some ri) (hci : toIdx col = some ci)
    (hcell : cell m.board ri ci = "") :
    (checkWinner (setCell m.board ri ci (p.symbol.getD "")) = none →
      isBoardFull (setCell m.board ri ci (p.symbol.getD "")) = false →
      (makeMove st sock row col startOk resOk).1 =
        setMatch st { m with board := setCell m.board ri ci (p.symbol.getD ""),
                             currentPlayer := flipSym m.currentPlayer } ∧
      flipSym m.currentPlayer ≠ m.currentPlayer) ∧
    (∀ w, checkWinner (setCell m.board ri ci (p.symbol.getD "")) = some w →
      ∃ mX, (makeMove st sock row col startOk resOk).1 = setMatch st mX ∧
        mX.currentPlayer = w ∧ mX.winner = some w) := by
  constructor
  · intro hw hfull
    refine ⟨?_, flipSym_ne m.currentPlayer⟩
    rw [makeMove_accepted st sock row col startOk resOk m p ri ci hfind hs ht hb hri hci hcell]
    simp [hw, hfull]
  · intro w hw
    rw [makeMove_accepted st sock row col startOk resOk m p ri ci hfind hs ht hb hri hci hcell]
    simp only [hw]
    by_cases hB : ((m.players.find? fun q => q.symbol == some w).isSome
        && (m.players.find? fun q => q.symbol != some w).isSome) = true
    · refine ⟨{ m with board := setCell m.board ri ci (p.symbol.getD ""), winner := some w, currentPlayer := w, startedAt := m.startedAt || startOk, status := "finished" }, ?_, rfl, rfl⟩
      simp [winBranch, hB]
    · refine ⟨{ m with board := setCell m.board ri ci (p.symbol.getD ""), winner := some w, currentPlayer := w }, ?_, rfl, rfl⟩
      simp [winBranch, hB]

/-- C3 witness: the first accepted move of the concrete playing match
switches the turn owner from X to O. -/
theorem C3_turn_alternation_witness :
    (makeMove stAB 1 (some 0) (some 0) true true).1 =
      setMatch stAB { mAB with board := setCell mAB.board 0 0 (pAB1.symbol.getD ""),
                               currentPlayer := flipSym mAB.currentPlayer } ∧
    flipSym mAB.currentPlayer ≠ mAB.currentPlayer :=
  (C3_turn_alternation stAB 1 (some 0) (some 0) true true mAB pAB1 0 0
    (by decide) (by decide) (by decide) (by decide) (by decide) (by decide)
    (by decide)).1 (by decide) (by decide)

/-- C2: external result reporting never influences the post-move state or
the emitted events (so a reporting failure is invisible to players), and
an accepted terminal move with an adequate roster concludes the session
and broadcasts game_finished after the report attempt, for any report
outcome. -/
theorem C2_terminal_conclusion :
    (∀ st sock row col startOk,
      makeMove st sock row col startOk true = makeMove st sock row col startOk false) ∧
    (∀ st sock row col startOk resOk (m : GameMatch) (p : GamePlayer) ri ci w,
      findBySocket st.activeMatches sock = some (m, p) →
      m.status = "playing" → p.symbol = some m.currentPlayer →
      (jsLt row 0 || jsGt row 2 || jsLt col 0 || jsGt col 2) = false →
      toIdx row = some ri → toIdx col = some ci → cell m.board ri ci = "" →
      checkWinner (setCell m.board ri ci (p.symbol.getD "")) = some w →
      (m.players.find? fun q => q.symbol == some w).isSome = true →
      (m.players.find? fun q => q.symbol != some w).isSome = true →
      makeMove st sock row col startOk resOk =
        (setMatch st
           { m with board := setCell m.board ri ci (p.symbol.getD ""),
                    winner := some w, currentPlayer := w,
                    startedAt := m.startedAt || startOk, status := "finished" },
         [Event.room m.id (Msg.gameFinished (some w)
            (setCell m.board ri ci (p.symbol.getD "")))],
         false)) ∧
    (∀ st sock row col startOk resOk (m : GameMatch) (p : GamePlayer) ri ci,
      findBySocket st.activeMatches sock = some (m, p) →
      m.status = "playing" → p.symbol = some m.currentPlayer →
      (jsLt row 0 || jsGt row 2 || jsLt col 0 || jsGt col 2) = false →
      toIdx row = some ri → toIdx col = some ci → cell m.board ri ci = "" →
      checkWinner (setCell m.board ri ci (p.symbol.getD "")) = none →
      isBoardFull (setCell m.board ri ci (p.symbol.getD "")) = true →
      2 ≤ m.players.length →
      makeMove st sock row col startOk resOk =
        (setMatch st
           { m with board := setCell m.board ri ci (p.symbol.getD ""),
                    winner := none, startedAt := m.startedAt || startOk,
                    status := "finished" },
         [Event.room m.id (Msg.gameFinished none
            (setCell m.board ri ci (p.symbol.getD "")))],
         false)) := by
  refine ⟨?_, ?_, ?_⟩
  · intro st sock row col startOk
    rfl
  · intro st sock row col startOk resOk m p ri ci w hfind hs ht hb hri hci hcell hw hw1 hw2
    rw [makeMove_accepted st sock row col startOk resOk m p ri ci hfind hs ht hb hri hci hcell]
    simp only [hw]
    simp [winBranch, hw1, hw2]
  · intro st sock row col startOk resOk m p ri ci hfind hs ht hb hri hci hcell hw hfull hlen
    rw [makeMove_accepted st sock row col startOk resOk m p ri ci hfind hs ht hb hri hci hcell]
    simp only [hw, hfull, if_true]
    simp [drawBranch, hlen]

/-- C2 witness: the concrete winning move on the two-player match mM4
concludes the session and broadcasts the result even with the external
report failing (resOk false). -/
theorem C2_terminal_conclusion_witness :
    makeMove stM4 1 (some 0) (some 2) true false =
      (setMatch stM4
         { mM4 with board := setCell mM4.board 0 2 (pM41.symbol.getD ""),
                    winner := some "X", currentPlayer := "X",
                    startedAt := mM4.startedAt || true, status := "finished" },
       [Event.room mM4.id (Msg.gameFinished (some "X")
          (setCell mM4.board 0 2 (pM41.symbol.getD "")))],
       false) :=
  C2_terminal_conclusion.2.1 stM4 1 (some 0) (some 2) true false mM4 pM41 0 2 "X"
    (by decide) (by decide) (by decide) (by decide) (by decide) (by decide)
    (by decide) (by decide) (by decide) (by decide)

/-- C9: the terminal-state evaluator is pure and sound - a returned symbol
always completes a line, null is returned exactly when no symbol completes
a line, isBoardFull is the all-9-cells test, and an accepted move
broadcasts game_finished{winner: null} exactly when the resulting board is
full with no winner. (The claimed full iff fails when both symbols
complete lines; see the counterexample.) -/
theorem C9_terminal_evaluator :
    (∀ (b : Board) (r : String), checkWinner b = some r → hasLine b r) ∧
    (∀ b : Board, checkWinner b = none ↔ ∀ s, ¬ hasLine b s) ∧
    (∀ b : Board, isBoardFull b = true ↔ ∀ i < 3, ∀ j < 3, cell b i j ≠ "") ∧
    (∀ st sock row col startOk resOk (m : GameMatch) (p : GamePlayer) ri ci,
      findBySocket st.activeMatches sock = some (m, p) →
      m.status = "playing" → p.symbol = some m.currentPlayer →
      (jsLt row 0 || jsGt row 2 || jsLt col 0 || jsGt col 2) = false →
      toIdx row = some ri → toIdx col = some ci → cell m.board ri ci = "" →
      ((makeMove st sock row col startOk resOk).2.1 =
          [Event.room m.id (Msg.gameFinished none
            (setCell m.board ri ci (p.symbol.getD "")))] ↔
        (checkWinner (setCell m.board ri ci (p.symbol.getD "")) = none ∧
         isBoardFull (setCell m.board ri ci (p.symbol.getD "")) = true))) := by
  refine ⟨fun b r h => checkWinner_hasLine h, checkWinner_none_iff, isBoardFull_iff, ?_⟩
  intro st sock row col startOk resOk m p ri ci hfind hs ht hb hri hci hcell
  rw [makeMove_accepted st sock row col startOk resOk m p ri ci hfind hs ht hb hri hci hcell]
  cases hw : checkWinner (setCell m.board ri ci (p.symbol.getD "")) with
  | some w => simp [winBranch, hw]
  | none =>
    by_cases hfull : isBoardFull (setCell m.board ri ci (p.symbol.getD "")) = true
    · simp [drawBranch, hw, hfull]
    · simp [hw, hfull]

/-- C9 witness: the evaluator instantiated on the concrete near-terminal
match mM4: the completed top row is a line for X, and the accepted move
X(0,2) does not broadcast a null winner since the board has a winner. -/
theorem C9_terminal_evaluator_witness :
    hasLine (setCell mM4.board 0 2 "X") "X" ∧
    ((makeMove stM4 1 (some 0) (some 2) true true).2.1 =
        [Event.room mM4.id (Msg.gameFinished none
          (setCell mM4.board 0 2 (pM41.symbol.getD "")))] ↔
      (checkWinner (setCell mM4.board 0 2 (pM41.symbol.getD "")) = none ∧
       isBoardFull (setCell mM4.board 0 2 (pM41.symbol.getD "")) = true)) :=
  ⟨C9_terminal_evaluator.1 (setCell mM4.board 0 2 "X") "X" (by decide),
   C9_terminal_evaluator.2.2.2 stM4 1 (some 0) (some 2) true true mM4 pM41 0 2
     (by decide) (by decide) (by decide) (by decide) (by decide) (by decide) (by decide)⟩

/-- C8 (amended): a third distinct verified identity joining a two-player
session IS added - the participant set grows to three entries, keeping the
stored two and appending the newcomer with no role; there is no capacity-2
bound. -/
theorem C8_third_join (st : ServerState) (a : AuthInput) (m : GameMatch)
    (hm : getMatch st a.matchId = some m)
    (hfp : m.players.find? (fun q => q.id == a.pid) = none)
    (hlen : m.players.length = 2) :
    ∃ m', getMatch (authenticate st a).1 a.matchId = some m' ∧
      m'.players.length = 3 ∧
      m'.players.map GamePlayer.id = m.players.map GamePlayer.id ++ [a.pid] ∧
      m'.status = m.status := by
  refine ⟨(authCore st a).1, authenticate_getMatch st a, ?_, ?_, ?_⟩
  · rw [authCore_thirdJoin st a m hm hfp hlen]
    simp [hlen]
  · rw [authCore_thirdJoin st a m hm hfp hlen]
    simp
  · rw [authCore_thirdJoin st a m hm hfp hlen]

/-- C8 witness: the concrete third join of p3 into the two-player match
mAB grows its participant set to three. -/
theorem C8_third_join_witness :
    ∃ m', getMatch (authenticate stAB aIn3).1 aIn3.matchId = some m' ∧
      m'.players.length = 3 ∧
      m'.players.map GamePlayer.id = mAB.players.map GamePlayer.id ++ [aIn3.pid] ∧
      m'.status = mAB.status :=
  C8_third_join stAB aIn3 mAB (by decide) (by decide) (by decide)

/-- C5 (amended): a second live connection for an already-bound participant
supersedes the older binding (the stored handle becomes the new socket,
the role and the rest of the session are untouched); but a later
disconnect arriving on ANY socket whose closure points at the participant
nulls the participant's current binding unconditionally - the handler
never compares the disconnecting socket with the stored one (see the
counterexample for the stale case). -/
theorem C5_binding_supersession :
    (∀ st (a : AuthInput) (m : GameMatch) (p : GamePlayer),
      getMatch st a.matchId = some m →
      m.players.find? (fun q => q.id == a.pid) = some p →
      ∃ m', getMatch (authenticate st a).1 a.matchId = some m' ∧
        m'.board = m.board ∧ m'.currentPlayer = m.currentPlayer ∧
        m'.status = m.status ∧
        ∃ q, m'.players.find? (fun x => x.id == a.pid) = some q ∧
          q.socket = some a.sock ∧ q.symbol = p.symbol) ∧
    (∀ st (sock : SockId) (c : SockId × String × String) (m : GameMatch) (p : GamePlayer),
      st.closures.find? (fun x => x.1 == sock) = some c →
      getMatch st c.2.2 = some m →
      m.players.find? (fun x => x.id == c.2.1) = some p →
      findPlayer (disconnect st sock).1 c.2.2 c.2.1 = some { p with socket := none }) := by
  constructor
  · intro st a m p hm hp
    have hgsock : ∀ x : GamePlayer,
        ((({ x with socket := some a.sock }) : GamePlayer)).id = x.id := fun x => rfl
    have hgreg : ∀ x : GamePlayer,
        ((({ x with registeredWithSDK := a.joinOk }) : GamePlayer)).id = x.id := fun x => rfl
    obtain ⟨-, hb, hcp, hst, -, hpl⟩ := authCore_reconnect st a m p hm hp
    refine ⟨(authCore st a).1, authenticate_getMatch st a, hb, hcp, hst, ?_⟩
    rcases hpl with h | h
    · refine ⟨{ p with socket := some a.sock }, ?_, rfl, rfl⟩
      rw [h]
      exact updatePlayer_find?_self _ hgsock hp
    · refine ⟨{ p with socket := some a.sock, registeredWithSDK := a.joinOk }, ?_, rfl, rfl⟩
      rw [h]
      exact updatePlayer_find?_self _ hgreg (updatePlayer_find?_self _ hgsock hp)
  · intro st sock c m p hc hm hp
    have hmid : m.id = c.2.2 := by
      have hm2 : st.activeMatches.find? (fun x => x.id == c.2.2) = some m := hm
      simpa using List.find?_some hm2
    have hgnull : ∀ x : GamePlayer,
        ((({ x with socket := none }) : GamePlayer)).id = x.id := fun x => rfl
    have hGm : getMatch (setMatch st { m with players := updatePlayer m.players c.2.1 (fun x => { x with socket := none }) }) c.2.2 = some { m with players := updatePlayer m.players c.2.1 (fun x => { x with socket := none }) } := by
      rw [show c.2.2 = ({ m with players := updatePlayer m.players c.2.1 (fun x => { x with socket := none }) } : GameMatch).id from hmid.symm]
      exact getMatch_setMatch_self st _
    have hGm2 : getMatch { setMatch st { m with players := updatePlayer m.players c.2.1 (fun x => { x with socket := none }) } with pendingGrace := (setMatch st { m with players := updatePlayer m.players c.2.1 (fun x => { x with socket := none }) }).pendingGrace ++ [(c.2.2, c.2.1)] } c.2.2 = some { m with players := updatePlayer m.players c.2.1 (fun x => { x with socket := none }) } := hGm
    unfold disconnect
    rw [hc]
    dsimp only
    rw [hm]
    dsimp only
    unfold findPlayer
    rw [hGm2]
    simp only [Option.some_bind]
    exact updatePlayer_find?_self _ hgnull hp

/-- C5 witness: p1 reconnecting on socket 7 supersedes the old binding
keeping role X, and a disconnect whose closure is (1, p1, m1) nulls p1's
stored handle. -/
theorem C5_binding_supersession_witness :
    (∃ m', getMatch (authenticate stAB aRe1).1 aRe1.matchId = some m' ∧
      m'.board = mAB.board ∧ m'.currentPlayer = mAB.currentPlayer ∧
      m'.status = mAB.status ∧
      ∃ q, m'.players.find? (fun x => x.id == aRe1.pid) = some q ∧
        q.socket = some aRe1.sock ∧ q.symbol = pAB1.symbol) ∧
    findPlayer (disconnect stAB 1).1 "m1" "p1" = some { pAB1 with socket := none } :=
  ⟨C5_binding_supersession.1 stAB aRe1 mAB pAB1 (by decide) (by decide),
   C5_binding_supersession.2 stAB 1 (1, "p1", "m1") mAB pAB1
     (by decide) (by decide) (by decide)⟩

/-- C6: a participant reconnecting with the same identity into their
playing session keeps their role, leaves the board, turn owner, status
and roster untouched, and alone receives the authenticated ack followed
by the game_state snapshot (board, turn owner, roster, own role). -/
theorem C6_reconnect_resync (st : ServerState) (a : AuthInput) (m : GameMatch) (p : GamePlayer)
    (hm : getMatch st a.matchId = some m)
    (hp : m.players.find? (fun q => q.id == a.pid) = some p)
    (hstat : m.status = "playing") :
    ∃ m', getMatch (authenticate st a).1 a.matchId = some m' ∧
      m'.board = m.board ∧ m'.currentPlayer = m.currentPlayer ∧
      m'.status = m.status ∧ roster m' = roster m ∧
      (∃ q, m'.players.find? (fun x => x.id == a.pid) = some q ∧
        q.symbol = p.symbol ∧ q.socket = some a.sock) ∧
      (authenticate st a).2.1 =
        [Event.emit a.sock
           (Msg.authenticated a.pid p.username a.matchId p.symbol "playing"),
         Event.emit a.sock
           (Msg.gameState m.board m.currentPlayer (roster m) p.symbol)] := by
  have hgsock : ∀ x : GamePlayer,
      ((({ x with socket := some a.sock }) : GamePlayer)).id = x.id := fun x => rfl
  have hgreg : ∀ x : GamePlayer,
      ((({ x with registeredWithSDK := a.joinOk }) : GamePlayer)).id = x.id := fun x => rfl
  obtain ⟨hws, hb, hcp, hst, -, hpl⟩ := authCore_reconnect st a m p hm hp
  obtain ⟨q, hqf, hqs, hqsock, hqu⟩ : ∃ q,
      (authCore st a).1.players.find? (fun x => x.id == a.pid) = some q ∧
      q.symbol = p.symbol ∧ q.socket = some a.sock ∧ q.username = p.username := by
    rcases hpl with h | h
    · refine ⟨{ p with socket := some a.sock }, ?_, rfl, rfl, rfl⟩
      rw [h]
      exact updatePlayer_find?_self _ hgsock hp
    · refine ⟨{ p with socket := some a.sock, registeredWithSDK := a.joinOk }, ?_, rfl, rfl, rfl⟩
      rw [h]
      exact updatePlayer_find?_self _ hgreg (updatePlayer_find?_self _ hgsock hp)
  have hros : roster (authCore st a).1 = roster m := by
    unfold roster
    rcases hpl with h | h
    · rw [h]
      exact updatePlayer_map_proj _ _ _ _ (fun x => rfl)
    · rw [h]
      rw [updatePlayer_map_proj
        (updatePlayer m.players a.pid fun q => { q with socket := some a.sock }) a.pid
        (fun q => { q with registeredWithSDK := a.joinOk })
        (fun x => (x.id, x.username, x.symbol)) (fun x => rfl)]
      exact updatePlayer_map_proj m.players a.pid
        (fun q => { q with socket := some a.sock })
        (fun x => (x.id, x.username, x.symbol)) (fun x => rfl)
  refine ⟨(authCore st a).1, authenticate_getMatch st a, hb, hcp, hst, hros,
    ⟨q, hqf, hqs, hqsock⟩, ?_⟩
  rw [authenticate_events st a]
  simp only [hqf, Option.getD_some, hqu, hqs, hst, hstat, hws, hb, hcp, hros]
  simp

/-- C6 witness: p1 reconnecting on socket 7 into the playing match mAB
keeps role X and receives the game_state resync snapshot alone. -/
theorem C6_reconnect_resync_witness :
    ∃ m', getMatch (authenticate stAB aRe1).1 aRe1.matchId = some m' ∧
      m'.board = mAB.board ∧ m'.currentPlayer = mAB.currentPlayer ∧
      m'.status = mAB.status ∧ roster m' = roster mAB ∧
      (∃ q, m'.players.find? (fun x => x.id == aRe1.pid) = some q ∧
        q.symbol = pAB1.symbol ∧ q.socket = some aRe1.sock) ∧
      (authenticate stAB aRe1).2.1 =
        [Event.emit aRe1.sock
           (Msg.authenticated aRe1.pid pAB1.username aRe1.matchId pAB1.symbol "playing"),
         Event.emit aRe1.sock
           (Msg.gameState mAB.board mAB.currentPlayer (roster mAB) pAB1.symbol)] :=
  C6_reconnect_resync stAB aRe1 mAB pAB1 (by decide) (by decide) (by decide)

/-- C1: when a second distinct identity joins a waiting one-participant
session, both role tokens are assigned atomically in join order (first
joiner X, second joiner O), the turn owner is set to X and the session
becomes playing; a stored role can only change at such a second join
(every other step preserves it); and no step ever returns a session from
a non-waiting status to waiting, so the assignment happens exactly once. -/
theorem C1_role_assignment :
    (∀ st (a : AuthInput) (m : GameMatch) (p0 : GamePlayer),
      getMatch st a.matchId = some m → m.status = "waiting" → m.players = [p0] →
      p0.id ≠ a.pid →
      getMatch (authenticate st a).1 a.matchId =
        some { m with
                players := [{ p0 with symbol := some "X" },
                  { id := a.pid, username := a.username, socket := some a.sock,
                    symbol := some "O", registeredWithSDK := a.joinOk }],
                currentPlayer := "X", status := "playing",
                startedAt := m.startedAt || a.startOk }) ∧
    (∀ st stp (mid pid : String) (p q : GamePlayer),
      (st.activeMatches.map GameMatch.id).Nodup →
      findPlayer st mid pid = some p →
      findPlayer (applyStep st stp).1 mid pid = some q →
      q.symbol ≠ p.symbol → isSecondJoin st stp mid) ∧
    (∀ st stp (mid : String) (m m' : GameMatch),
      (st.activeMatches.map GameMatch.id).Nodup →
      getMatch st mid = some m → getMatch (applyStep st stp).1 mid = some m' →
      m.status ≠ "waiting" → m'.status ≠ "waiting") := by
  refine ⟨?_, roles_frame, status_no_revert⟩
  intro st a m p0 hm hw hone hne
  rw [authenticate_getMatch, authCore_secondJoin st a m p0 hm hw hone hne]

/-- C1 witness: the concrete second join of p2 into the waiting
one-player match mA assigns X to p1 and O to p2 and starts play; the
join is the only role-changing step for p1; and the playing match mAB
stays non-waiting across a disconnect step. -/
theorem C1_role_assignment_witness :
    getMatch (authenticate stA aIn2).1 aIn2.matchId =
      some { mA with
              players := [{ pA1 with symbol := some "X" },
                { id := aIn2.pid, username := aIn2.username, socket := some aIn2.sock,
                  symbol := some "O", registeredWithSDK := aIn2.joinOk }],
              currentPlayer := "X", status := "playing",
              startedAt := mA.startedAt || aIn2.startOk } ∧
    isSecondJoin stA (Step.auth aIn2) "m1" ∧
    ({ mAB with players := [{ pAB1 with socket := none }, pAB2] } : GameMatch).status ≠
      "waiting" :=
  ⟨C1_role_assignment.1 stA aIn2 mA pA1 (by decide) (by decide) (by decide) (by decide),
   C1_role_assignment.2.1 stA (Step.auth aIn2) "m1" "p1" pA1 { pA1 with symbol := some "X" }
     (by decide) (by decide) (by decide) (by decide),
   C1_role_assignment.2.2 stAB (Step.disc 1) "m1" mAB
     { mAB with players := [{ pAB1 with socket := none }, pAB2] } (by decide) (by decide)
     (by decide) (by decide)⟩
